import Mathlib

/-!
Verification development for the reddit comment scoring-and-classification
pipeline (`reddit_export.py`).

Modelling conventions used throughout this file:

* Python `str` values are modelled as `List Char` (named `Str` below).
  All inputs of interest are ASCII, and the ASCII fragments of Python's
  `str.lower`, `str.strip`, `\s`, `\b` and friends are modelled exactly.
* Python floats: every constant in the scoring code is a multiple of 0.1,
  so scores are modelled as integers scaled by 10 (`2.2` becomes `22`).
  `round(x, 1)` is then the identity.  Ratio comparisons against `0.5`,
  `0.28`, `0.75`, `0.55` and `0.35` are modelled by the equivalent exact
  cross-multiplied integer comparisons; for the list sizes that occur the
  float comparison and the exact rational comparison agree because the
  distance of any representable ratio from the threshold far exceeds the
  rounding error of a single float division.
* Python regular expressions are modelled by a small backtracking matcher
  (`reM` below) covering exactly the constructs the source uses: literal
  characters, alternation (tried in source order, as Python does), greedy
  `?`, `X+`/`X*` on character classes, the bounded wildcard `.{0,n}`
  (which does not match a newline) and the word boundary `\b`
  (word characters being `[A-Za-z0-9_]`).  `re.search` is existence of a
  match at some start position; `len(re.findall(...))` is the count of
  left-to-right non-overlapping matches, each consuming the leftmost
  match obtained by trying alternatives in pattern order.
-/

set_option maxRecDepth 1000000

/-- Python strings, modelled as lists of characters. -/
abbrev Str := List Char

/-- The ASCII apostrophe character. -/
def aposC : Char := Char.ofNat 39

/-- The Unicode right single quotation mark, which occurs in the source
pattern `i’ve`. -/
def curlyAposC : Char := Char.ofNat 8217

/-- ASCII whitespace in the sense of Python's `\s`, `str.strip` and
`str.split`: space, tab, newline, carriage return, vertical tab, form feed. -/
def pyIsWS (c : Char) : Bool :=
  c.toNat = 32 || c.toNat = 9 || c.toNat = 10 || c.toNat = 13 ||
    c.toNat = 11 || c.toNat = 12

/-- Word characters for Python's `\b`: letters, digits, underscore
(ASCII fragment). -/
def pyIsWord (c : Char) : Bool :=
  c.isAlphanum || c = '_'

/-- One character of Python's `.` wildcard (any character except newline,
since `re.DOTALL` is never used in the source). -/
def pyIsDot (c : Char) : Bool :=
  c.toNat ≠ 10

/-- ASCII lowercase conversion, the fragment of Python's `str.lower`
relevant here.  `Char.toLower` maps `A`..`Z` to `a`..`z` and leaves
everything else unchanged. -/
def lowerStr (s : Str) : Str := s.map Char.toLower

/-- Does `p` occur at the very start of `l`?  (Helper for Python's
substring test.) -/
def startsWith : Str → Str → Bool
  | [], _ => true
  | _ :: _, [] => false
  | p :: ps, c :: cs => p = c && startsWith ps cs

/-- Python's substring containment `p in l`. -/
def containsSub : Str → Str → Bool
  | l, p =>
    startsWith p l ||
      match l with
      | [] => false
      | _ :: rest => containsSub rest p

/-- `dropWhile` does not lengthen a list (termination helper). -/
theorem length_dropWhile_le' (p : Char → Bool) (l : Str) :
    (l.dropWhile p).length ≤ l.length := by
  induction l with
  | nil => simp [List.dropWhile]
  | cons c rest ih =>
    by_cases h : p c
    · simp [List.dropWhile, h]
      omega
    · simp [List.dropWhile, h]

/-- Maximal runs of characters satisfying `p`, in order.  This is
`re.findall` for a pattern of the shape `[class]+`.  (Structural recursion
with one-character lookahead, so that the kernel can evaluate it.) -/
def runsOf (p : Char → Bool) : Str → List Str
  | [] => []
  | c :: rest =>
    let r := runsOf p rest
    if p c then
      match rest with
      | [] => [[c]]
      | d :: _ =>
        if p d then
          match r with
          | [] => [[c]]
          | h :: t => (c :: h) :: t
        else [c] :: r
    else r

/-!  ## The regular-expression matcher  -/

/-- Abstract syntax of the regular-expression fragment used by the source. -/
inductive RE where
  | eps : RE
  | ch (c : Char) : RE
  | cls (p : Char → Bool) : RE
  | seq (a b : RE) : RE
  | alt (a b : RE) : RE
  | opt (a : RE) : RE
  | many1 (p : Char → Bool) : RE
  | many0 (p : Char → Bool) : RE
  | upTo (n : Nat) (p : Char → Bool) : RE
  | wb : RE

/-- Literal string pattern. -/
def lit (s : String) : RE :=
  s.toList.foldr (fun c r => RE.seq (RE.ch c) r) RE.eps

/-- Literal pattern from an explicit character list. -/
def litL (s : Str) : RE :=
  s.foldr (fun c r => RE.seq (RE.ch c) r) RE.eps

/-- Alternation of a list of patterns, associated to the right, in order. -/
def altL : List RE → RE
  | [] => RE.cls (fun _ => false)
  | [r] => r
  | r :: rs => RE.alt r (altL rs)

/-- Is there a word boundary between the previous character (`none` at the
start of the string) and the next one (`none` at the end)? -/
def atWB (prev : Option Char) (s : Str) : Bool :=
  let w1 := match prev with | none => false | some c => pyIsWord c
  let w2 := match s with | [] => false | c :: _ => pyIsWord c
  w1 != w2

/-- Greedy Kleene star over a character class, in continuation style:
consume as many class characters as possible, backtracking into the
continuation `k`. -/
def reMany (p : Char → Bool) (k : Option Char → Str → Option (Option Char × Str)) :
    Option Char → Str → Option (Option Char × Str)
  | prev, [] => k prev []
  | prev, c :: rest =>
    (if p c then reMany p k (some c) rest else none) <|> k prev (c :: rest)

/-- Greedy bounded wildcard `.{0,n}`-style repetition over a class. -/
def reUpTo (p : Char → Bool) (k : Option Char → Str → Option (Option Char × Str)) :
    Nat → Option Char → Str → Option (Option Char × Str)
  | 0, prev, s => k prev s
  | n + 1, prev, s =>
    (match s with
     | c :: rest => if p c then reUpTo p k n (some c) rest else none
     | [] => none) <|> k prev s

/-- The backtracking matcher.  `reM r prev s k` tries to match `r` at the
start of `s` (with `prev` the character just before `s`, for `\b`), and on
success calls the continuation with the updated context.  Alternatives are
tried in order and quantifiers are greedy, exactly as in Python's `re`. -/
def reM : RE → Option Char → Str → (Option Char → Str → Option (Option Char × Str)) →
    Option (Option Char × Str)
  | RE.eps, prev, s, k => k prev s
  | RE.ch c, _, s, k =>
    match s with
    | [] => none
    | x :: rest => if x = c then k (some x) rest else none
  | RE.cls p, _, s, k =>
    match s with
    | [] => none
    | x :: rest => if p x then k (some x) rest else none
  | RE.seq a b, prev, s, k => reM a prev s (fun p' s' => reM b p' s' k)
  | RE.alt a b, prev, s, k => reM a prev s k <|> reM b prev s k
  | RE.opt a, prev, s, k => reM a prev s k <|> k prev s
  | RE.many1 p, _, s, k =>
    match s with
    | [] => none
    | x :: rest => if p x then reMany p k (some x) rest else none
  | RE.many0 p, prev, s, k => reMany p k prev s
  | RE.upTo n p, prev, s, k => reUpTo p k n prev s
  | RE.wb, prev, s, k => if atWB prev s then k prev s else none

/-- The leftmost match of `r` at the start of `s`, if any (Python
preference order): returns the context after the match. -/
def reTry (r : RE) (prev : Option Char) (s : Str) : Option (Option Char × Str) :=
  reM r prev s (fun p' s' => some (p', s'))

/-- `re.search` from an arbitrary context. -/
def reSearchFrom (r : RE) : Option Char → Str → Bool
  | prev, [] => (reTry r prev []).isSome
  | prev, c :: rest => (reTry r prev (c :: rest)).isSome || reSearchFrom r (some c) rest

/-- Python's `re.search(r, s) is not None`. -/
def reSearch (r : RE) (s : Str) : Bool :=
  reSearchFrom r none s

/-- Python's `re.search` for a pattern anchored with `^` (no `re.MULTILINE`
is used in the source, so the anchor means the start of the string). -/
def reMatchStart (r : RE) (s : Str) : Bool :=
  (reTry r none s).isSome

/-- `len(re.findall(r, s))` from a given context: scan left to right,
counting non-overlapping matches; on failure advance one character.  The
fuel only bounds the number of scan steps; every step strictly shortens
the remaining string, so the initial fuel `s.length + 1` (see `reCount`)
is always sufficient. -/
def reCountFuel (r : RE) : Nat → Option Char → Str → Nat
  | 0, _, _ => 0
  | fuel + 1, prev, s =>
    match reTry r prev s with
    | some (p', s') =>
      if s'.length < s.length then 1 + reCountFuel r fuel p' s'
      else
        match s with
        | [] => 1
        | c :: rest => 1 + reCountFuel r fuel (some c) rest
    | none =>
      match s with
      | [] => 0
      | c :: rest => reCountFuel r fuel (some c) rest

/-- `len(re.findall(r, s))`. -/
def reCount (r : RE) (s : Str) : Nat :=
  reCountFuel r (s.length + 1) none s

/-!  ## Text helpers shared by the filters  -/

/-- Convert a `String` literal to the `Str` representation. -/
def lstr (s : String) : Str := s.toList

/-- A sentence separator in the sense of the source (`[.!?]`). -/
def isSentSep (c : Char) : Bool :=
  c = '.' || c = '!' || c = '?'

/-- A word in the sense of the source's `[A-Za-z']+` pattern. -/
def isWordAp (c : Char) : Bool :=
  c.isAlpha || c = aposC

/-- Remove a trailing whitespace run (structural helper for `str.strip`). -/
def rstripWS : Str → Str
  | [] => []
  | c :: rest =>
    match rstripWS rest with
    | [] => if pyIsWS c then [] else [c]
    | h :: t => c :: h :: t

/-- `str.strip()` (ASCII whitespace fragment): drop the leading and the
trailing whitespace run. -/
def stripWS (l : Str) : Str :=
  rstripWS (l.dropWhile pyIsWS)

/-- Split at every separator character individually.  `re.split('[.!?]+', t)`
differs only by merging adjacent separators, which produces extra empty
pieces here; after the strip-and-drop-empties step of `get_sentences` the
two agree. -/
def splitOnPred (p : Char → Bool) : Str → List Str
  | [] => [[]]
  | c :: rest =>
    let r := splitOnPred p rest
    if p c then [] :: r
    else
      match r with
      | [] => [[c]]
      | h :: t => (c :: h) :: t

/-- `sentence_count` from the source: `len(re.findall(r"[.!?]+", text))`,
i.e. the number of maximal separator runs. -/
def sentence_count (text : Str) : Nat :=
  (runsOf isSentSep text).length

/-- `get_sentences` from the source: split on sentence separators, strip
each piece, drop empties. -/
def get_sentences (text : Str) : List Str :=
  ((splitOnPred isSentSep text).map stripWS).filter (fun s => !s.isEmpty)

/-- A line terminator for `str.splitlines` (ASCII fragment: LF, CR, VT, FF;
CRLF is treated as one terminator below). -/
def isLineTerm (c : Char) : Bool :=
  c.toNat = 10 || c.toNat = 13 || c.toNat = 11 || c.toNat = 12

/-- `str.splitlines()` (ASCII fragment).  No trailing empty line is produced
for a trailing terminator, matching Python. -/
def pySplitLines : Str → List Str
  | [] => []
  | [c] => if isLineTerm c then [[]] else [[c]]
  | c :: d :: rest =>
    if c.toNat = 13 && d.toNat = 10 then [] :: pySplitLines rest
    else if isLineTerm c then [] :: pySplitLines (d :: rest)
    else
      match pySplitLines (d :: rest) with
      | [] => [[c]]
      | h :: t => (c :: h) :: t

/-- Concatenate a list of strings with a separator (Python `", ".join`). -/
def joinSep (sep : Str) : List Str → Str
  | [] => []
  | [s] => s
  | s :: rest => s ++ sep ++ joinSep sep rest

/-- Format an integer score scaled by 10 the way Python's `f"{x:.1f}"`
formats the corresponding float (every score is a multiple of 0.1, so the
float prints exactly). -/
def formatScore (n : Int) : Str :=
  (if n < 0 then ['-'] else []) ++
    Nat.toDigits 10 (n.natAbs / 10) ++ ['.'] ++ Nat.toDigits 10 (n.natAbs % 10)

/-!  ## `low_quality_text_reason`  -/

/-- The nonsense markers of `low_quality_text_reason`. -/
def nonsenseMarkers : List Str :=
  [ lstr "throttle throttle",
    lstr "that'll do pig",
    lstr "pork chops and applesauce" ]

/-- `low_quality_text_reason` from the source.  Returns `[]` when quality
looks acceptable.  The float ratio comparisons `>= 0.5` and `<= 0.28` are
modelled by the exact cross-multiplied comparisons `2*k ≥ n` and
`25*u ≤ 7*w`. -/
def low_quality_text_reason (text : Str) : Str :=
  let sentences := get_sentences text
  let words := runsOf isWordAp text
  if sentences.isEmpty || words.isEmpty then lstr "No meaningful content"
  else
    let counts := sentences.map (fun s => (runsOf isWordAp s).length)
    let shortSent := counts.countP (fun k => k ≤ 4)
    if sentences.length ≥ 10 ∧ 2 * shortSent ≥ counts.length then
      lstr "Low coherence (too many short fragments)"
    else
      let lines := ((pySplitLines text).map stripWS).filter (fun s => !s.isEmpty)
      let shortLines := lines.countP (fun s => (runsOf isWordAp s).length ≤ 4)
      if lines.length ≥ 8 ∧ 2 * shortLines ≥ lines.length then
        lstr "Low coherence (fragmented lines)"
      else
        let wordList := words.map lowerStr
        if wordList.length ≥ 140 ∧ 25 * wordList.dedup.length ≤ 7 * wordList.length then
          lstr "Low lexical diversity"
        else
          let textLower := lowerStr text
          if nonsenseMarkers.any (fun m => containsSub textLower m) then
            lstr "Low coherence (nonsense markers)"
          else []

/-!  ## `is_hard_negative_comment`  -/

/-- The fields of a reddit comment that the filters read.  Python's
`str((comment or {}).get("distinguished") or "")` and friends collapse
missing fields to the empty string / `False`, which these fields model
directly. -/
structure CommentM where
  author : Str
  distinguished : Str
  stickied : Bool
deriving Repr, DecidableEq

/-- A comment with no metadata (`{}` / `None` in the source). -/
def emptyComment : CommentM := ⟨[], [], false⟩

/-- `HARD_SKIP_THREAD_KEYWORDS` from the source (module-level constant). -/
def hardSkipKeywords : List Str :=
  [ lstr "promote your business",
    lstr "weekly thread",
    lstr "daily thread",
    lstr "megathread",
    lstr "open thread",
    lstr "showcase",
    lstr "introduce yourself",
    lstr "ama",
    lstr "ask me anything" ]

/-- Sequence a list of patterns (concatenation). -/
def reCat (l : List RE) : RE :=
  l.foldr RE.seq RE.eps

/-- `\s+` -/
def sP : RE := RE.many1 pyIsWS

/-- `\s*` -/
def sStar : RE := RE.many0 pyIsWS

/-- `\S+` -/
def nonWS : RE := RE.many1 (fun c => !pyIsWS c)

/-- `moderator_notice_patterns` of `is_hard_negative_comment`. -/
def modNoticePats : List RE :=
  [ reCat [RE.wb, lit "please report", RE.wb],
    reCat [RE.wb, lit "this post will be removed", RE.wb],
    reCat [RE.wb, lit "if it looks like", RE.wb, RE.upTo 40 pyIsDot, RE.wb,
           lit "removed", RE.wb],
    reCat [RE.wb, lit "mod", RE.opt (lit "erator"), lit " team", RE.wb],
    reCat [RE.wb, lit "this thread", RE.wb, RE.upTo 30 pyIsDot, RE.wb,
           lit "spammer", RE.opt (RE.ch 's'), RE.wb] ]

/-- `service_pitch_patterns` of `is_hard_negative_comment`. -/
def servicePitchPats : List RE :=
  [ reCat [RE.wb, lit "open to a conversation", RE.wb],
    reCat [RE.wb, altL [lit "i", lit "we"], sP,
           altL [lit "help", lit "support", lit "coach", lit "consult"], RE.wb],
    reCat [RE.wb, lit "if you decide", RE.wb, RE.upTo 50 pyIsDot, RE.wb,
           altL [lit "i", lit "we"], sP, altL [lit "step in", lit "can help"], RE.wb],
    reCat [RE.wb, lit "visit", sP, nonWS, RE.ch '.', nonWS],
    reCat [RE.wb, lit "dm me", RE.wb],
    reCat [RE.wb, lit "contact me", RE.wb] ]

/-- `is_hard_negative_comment` from the source. -/
def is_hard_negative_comment (c : CommentM) (body title : Str) : Bool × Str :=
  let textLower := lowerStr body
  let titleLower := lowerStr title
  if hardSkipKeywords.any (fun k => containsSub titleLower k) then
    (true, lstr "Meta/promo thread")
  else if lowerStr c.distinguished = lstr "moderator" ∨
          lowerStr c.distinguished = lstr "admin" then
    (true, lstr "Moderator/admin comment")
  else if lowerStr c.author = lstr "automoderator" then
    (true, lstr "AutoModerator comment")
  else if c.stickied then
    (true, lstr "Stickied moderator comment")
  else if modNoticePats.any (fun p => reSearch p textLower) then
    (true, lstr "Moderator notice")
  else if servicePitchPats.any (fun p => reSearch p textLower) then
    (true, lstr "Service pitch/self-promo")
  else (false, [])

/-!  ## `rank_comment_pain_potential`  -/

/-- The first/second-person findall pattern
`\b(i|i'm|i’ve|ive|i've|me|my|mine|we|our|us)\b`. -/
def fpPat : RE :=
  reCat [RE.wb,
         altL [lit "i", lit "i'm", lit "i’ve", lit "ive", lit "i've", lit "me",
               lit "my", lit "mine", lit "we", lit "our", lit "us"],
         RE.wb]

/-- `\b(you|your|you're|u)\b`. -/
def spPat : RE :=
  reCat [RE.wb, altL [lit "you", lit "your", lit "you're", lit "u"], RE.wb]

/-- `pain_terms` of `rank_comment_pain_potential` (substring matches). -/
def painTerms : List Str :=
  [ lstr "frustrated", lstr "frustrating", lstr "overwhelmed", lstr "stressed",
    lstr "stuck", lstr "struggling", lstr "can't", lstr "cannot", lstr "failed",
    lstr "failing", lstr "problem", lstr "issue", lstr "worried", lstr "confused",
    lstr "burned out", lstr "burnout", lstr "drowning", lstr "killing us",
    lstr "cash crunch" ]

/-- `impact_patterns` of `rank_comment_pain_potential`. -/
def impactPatsRank : List RE :=
  [ reCat [altL [lit "losing", lit "lost", lit "no", lit "not enough"], sP,
           altL [lit "customers", lit "clients", lit "sales", lit "revenue", lit "money"]],
    lit "cash flow",
    reCat [lit "can't ", altL [lit "afford", lit "hire", lit "scale", lit "pay", lit "keep up"]],
    reCat [altL [lit "payroll", lit "rent", lit "overhead", lit "expenses", lit "costs"], sP,
           altL [lit "is", lit "are"], sP,
           altL [lit "too high", lit "killing", lit "out of control", lit "eating"]],
    reCat [altL [lit "employees", lit "staff"], sP,
           altL [lit "quit", lit "left", lit "leaving", lit "unreliable"]],
    reCat [RE.wb, lit "net", sStar, altL [lit "30", lit "45", lit "60", lit "90"], RE.wb],
    reCat [RE.wb, lit "out of pocket", RE.wb],
    reCat [RE.wb, lit "front", RE.opt (lit "ing"), sP,
           altL [lit "cash", lit "costs", lit "materials", lit "labor"], RE.wb],
    reCat [RE.wb, altL [reCat [lit "account", RE.opt (RE.ch 's'), sP, lit "receivable"],
                        lit "ar"], RE.wb],
    reCat [RE.wb, lit "line of credit", RE.wb] ]

/-- `\b(i|we)\s+(tried|attempted|have tried|did)\b.{0,90}\b(but|however|still)\b`. -/
def attemptPat : RE :=
  reCat [RE.wb, altL [lit "i", lit "we"], sP,
         altL [lit "tried", lit "attempted", lit "have tried", lit "did"], RE.wb,
         RE.upTo 90 pyIsDot, RE.wb, altL [lit "but", lit "however", lit "still"], RE.wb]

/-- `\b(how do i|how can i|what should i do|need help|any advice)\b`. -/
def helpPatRank : RE :=
  reCat [RE.wb,
         altL [lit "how do i", lit "how can i", lit "what should i do",
               lit "need help", lit "any advice"],
         RE.wb]

/-- `advice_start_patterns`, all anchored with `^` in the source (they are
tried against the first sentence with `reMatchStart`). -/
def adviceStartPats : List RE :=
  [ reCat [lit "you ",
           altL [lit "should", lit "need to", lit "have to", lit "must", lit "can", lit "could"],
           RE.cls pyIsWS],
    lit "raise prices",
    lit "i recommend",
    lit "can you elaborate",
    reCat [lit "here", altL [reCat [RE.opt (RE.ch aposC), RE.ch 's'], lit " is"],
           lit " what i do"],
    lit "if i were you" ]

/-- Success/celebration tokens (substring matches). -/
def successTokens : List Str :=
  [ lstr "success story", lstr "just hit", lstr "milestone", lstr "celebrating",
    lstr "congrats" ]

/-- `https?://`. -/
def urlPat : RE := reCat [lit "http", RE.opt (RE.ch 's'), lit "://"]

/-- `\b(visit|buy|subscribe|checkout|check out|link in bio)\b`. -/
def ctaPat : RE :=
  reCat [RE.wb,
         altL [lit "visit", lit "buy", lit "subscribe", lit "checkout",
               lit "check out", lit "link in bio"],
         RE.wb]

/-- The tokens of `re.findall(r"[a-z]{4,}", s)`: maximal lowercase runs of
length at least 4. -/
def tokens4 (s : Str) : List Str :=
  (runsOf Char.isLower s).filter (fun t => t.length ≥ 4)

/-- The number of distinct pain terms present in the text
(`sum(1 for term in pain_terms if term in text_lower)`). -/
def painTermHits (textLower : Str) : Nat :=
  painTerms.countP (fun t => containsSub textLower t)

/-- The pain-language contribution of the pre-rank score:
`min(pain_term_hits * 1.5, 12)` when any term matches (scaled by 10). -/
def painLanguageComponent (textLower : Str) : Int :=
  if painTermHits textLower > 0 then min ((painTermHits textLower : Int) * 15) 120 else 0

/-- `rank_comment_pain_potential` from the source.  Scores are scaled by 10
(so the sentinels −20.0 and −12.0 become −200 and −120); `round(score, 1)`
is the identity under this scaling.  The scorer is a total function by
construction — it never throws. -/
def rank_comment_pain_potential (text title : Str) (c : CommentM) : Int × List Str :=
  let textLower := lowerStr text
  let hn := is_hard_negative_comment c text title
  if hn.1 then (-200, [lstr "hard_negative:" ++ hn.2])
  else
    let q := low_quality_text_reason text
    if !q.isEmpty then (-120, [lstr "low_quality:" ++ q])
    else
      let fp := reCount fpPat textLower
      let sp := reCount spPat textLower
      let fpScore : Int := if fp ≥ 3 then 40 else if fp ≥ 1 then 20 else 0
      let fpSig : List Str :=
        if fp ≥ 3 then [lstr "first_person_strong"]
        else if fp ≥ 1 then [lstr "first_person"] else []
      let painScore : Int := painLanguageComponent textLower
      let painSig : List Str := if painTermHits textLower > 0 then [lstr "pain_language"] else []
      let impactHits := impactPatsRank.countP (fun p => reSearch p textLower)
      let impactScore : Int := if impactHits > 0 then min ((impactHits : Int) * 30) 120 else 0
      let impactSig : List Str := if impactHits > 0 then [lstr "business_impact"] else []
      let attemptB := reSearch attemptPat textLower
      let attemptScore : Int := if attemptB then 30 else 0
      let attemptSig : List Str := if attemptB then [lstr "attempt_failed"] else []
      let helpB := reSearch helpPatRank textLower
      let helpScore : Int := if helpB then 20 else 0
      let helpSig : List Str := if helpB then [lstr "help_request"] else []
      let sentences := get_sentences text
      let firstSentence := lowerStr (sentences.headD [])
      let adviceB := (adviceStartPats.any (fun p => reMatchStart p firstSentence)) && fp ≤ 1
      let adviceScore : Int := if adviceB then -60 else 0
      let adviceSig : List Str := if adviceB then [lstr "advice_penalty"] else []
      let spDomB := sp ≥ fp + 3 && sp ≥ 4
      let spDomScore : Int := if spDomB then -50 else 0
      let spDomSig : List Str := if spDomB then [lstr "second_person_dominant"] else []
      let successB := successTokens.any (fun t => containsSub textLower t)
      let successScore : Int := if successB then -60 else 0
      let successSig : List Str := if successB then [lstr "success_penalty"] else []
      let urlB := reSearch urlPat textLower
      let ctaB := reSearch ctaPat textLower
      let urlScore : Int := if urlB then (if ctaB then -40 else -10) else 0
      let urlSig : List Str := if urlB && ctaB then [lstr "promo_url_penalty"] else []
      let titleTokens := (tokens4 (lowerStr title)).dedup
      let textTokens := tokens4 textLower
      let overlapB :=
        !titleTokens.isEmpty &&
          (titleTokens.countP (fun t => textTokens.contains t)) ≥ 2
      let overlapScore : Int := if overlapB then 20 else 0
      let overlapSig : List Str := if overlapB then [lstr "topic_overlap"] else []
      (fpScore + painScore + impactScore + attemptScore + helpScore + adviceScore +
         spDomScore + successScore + urlScore + overlapScore,
       fpSig ++ painSig ++ impactSig ++ attemptSig ++ helpSig ++ adviceSig ++
         spDomSig ++ successSig ++ urlSig ++ overlapSig)

/-!  ## `is_substantive_pain_expression`  -/

/-- The pain categories assigned on acceptance. -/
inductive Category where
  | cash_flow_finance
  | staffing
  | operations_systems
  | marketing_growth
  | legal_compliance
  | founder_burnout
  | customer_management
  | general_business_pain
deriving Repr, DecidableEq

/-- `promo_patterns` of the strict classifier. -/
def promoPats : List RE :=
  [ reCat [lit "portfolio", RE.many0 pyIsDot, lit "dribbble"],
    reCat [lit "package", RE.opt (RE.ch 's'), lit " start at $"],
    lit "feel free to contact me at",
    reCat [lit "check out ", altL [lit "my", lit "our"], RE.ch ' ',
           altL [lit "website", lit "service", lit "product"]],
    lit ".myshopify.com",
    reCat [RE.wb, lit "buy now", RE.wb],
    reCat [RE.wb, lit "subscribe", RE.wb],
    reCat [RE.wb, lit "visit", sP, nonWS, RE.ch '.', nonWS],
    reCat [RE.wb, lit "dm me", RE.wb],
    reCat [RE.wb, lit "contact me", RE.wb] ]

/-- `moderator_notice_patterns` of the strict classifier (a different list
from the hard-negative filter's). -/
def modNoticePatsStrict : List RE :=
  [ reCat [RE.wb, lit "please report", RE.wb],
    reCat [RE.wb, lit "post", RE.wb, RE.upTo 40 pyIsDot, RE.wb, lit "removed", RE.wb],
    reCat [RE.wb, lit "spammer", RE.opt (RE.ch 's'), RE.wb],
    reCat [RE.wb, lit "this thread", RE.wb, RE.upTo 40 pyIsDot, RE.wb,
           lit "promotion", RE.wb] ]

/-- `\b(he|she|they|my friend|my client|my cousin)\b`. -/
def thirdPersonPat : RE :=
  reCat [RE.wb,
         altL [lit "he", lit "she", lit "they", lit "my friend", lit "my client",
               lit "my cousin"],
         RE.wb]

/-- `own_context_patterns`. -/
def ownContextPats : List RE :=
  [ reCat [RE.wb, lit "my", sP,
           altL [lit "business", lit "company", lit "shop", lit "practice",
                 lit "store", lit "agency"], RE.wb],
    reCat [RE.wb, altL [lit "i", lit "we"], sP,
           altL [lit "run", lit "own", lit "manage", lit "operate"], RE.wb] ]

/-- `business_context_pattern`. -/
def businessContextPat : RE :=
  reCat [RE.wb,
         altL [lit "business", lit "company", lit "shop", lit "practice", lit "store",
               lit "agency", lit "client", lit "customer", lit "revenue", lit "sales",
               lit "cash flow", lit "payroll", lit "invoice", lit "supplier",
               lit "vendor", lit "employee", lit "staff", lit "profit", lit "margin"],
         RE.wb]

/-- `first_person_pain_patterns`. -/
def fpPainPats : List RE :=
  [ reCat [RE.wb, lit "i", sP,
           altL [lit "can't", lit "cannot", lit "couldn't", lit "am unable to",
                 lit "don't know how to"], RE.wb],
    reCat [RE.wb, altL [lit "i'm", lit "i am", lit "we are"], sP,
           altL [lit "stuck", lit "frustrated", lit "overwhelmed", lit "stressed",
                 lit "worried", lit "exhausted", lit "burned out"], RE.wb],
    reCat [RE.wb, altL [lit "i", lit "we"], sP,
           altL [lit "need", lit "want", lit "wish"], sP,
           altL [lit "help", lit "advice", lit "to fix", lit "to solve",
                 lit "to figure out"], RE.wb],
    reCat [RE.wb, altL [lit "i", lit "we"], sP, altL [lit "regret", lit "hate"], RE.wb],
    reCat [RE.wb, altL [lit "i", lit "we"], sP, altL [lit "have to", lit "had to"], sP,
           lit "front", RE.wb],
    reCat [RE.wb, altL [lit "i", lit "we"], sP, altL [lit "keep", lit "still"], sP,
           altL [lit "losing", lit "fighting", lit "dealing with"], RE.wb] ]

/-- `impact_patterns` of the strict classifier. -/
def impactPatsStrict : List RE :=
  [ lit "cash flow",
    reCat [altL [lit "losing", lit "lost", lit "no", lit "not enough"], sP,
           altL [lit "customers", lit "clients", lit "sales", lit "revenue", lit "money"]],
    reCat [lit "can't ", altL [lit "afford", lit "hire", lit "scale", lit "pay", lit "keep up"]],
    reCat [altL [lit "payroll", lit "rent", lit "overhead", lit "expenses", lit "costs"], sP,
           altL [lit "is", lit "are"], sP,
           altL [lit "killing", lit "too high", lit "eating", lit "out of control"]],
    reCat [altL [lit "employees", lit "staff"], sP,
           altL [lit "quit", lit "left", lit "leaving", lit "unreliable"]],
    altL [lit "bad reviews", lit "chargebacks", lit "refunds"],
    reCat [RE.wb, lit "net", sStar, altL [lit "30", lit "45", lit "60", lit "90"], RE.wb],
    reCat [RE.wb, lit "out of pocket", RE.wb],
    reCat [RE.wb, lit "front", RE.opt (lit "ing"), sP,
           altL [lit "cash", lit "costs", lit "materials", lit "labor"], RE.wb],
    reCat [RE.wb, altL [reCat [lit "account", RE.opt (RE.ch 's'), sP, lit "receivable"],
                        lit "ar"], RE.wb],
    reCat [RE.wb, lit "line of credit", RE.wb] ]

/-- `unresolved_patterns`. -/
def unresolvedPats : List RE :=
  [ reCat [RE.wb, altL [lit "i", lit "we"], RE.wb, RE.upTo 24 pyIsDot, RE.wb,
           altL [lit "still", lit "yet", lit "again", lit "ongoing", lit "keep"], RE.wb],
    reCat [RE.wb, altL [lit "i", lit "we"], RE.wb, RE.upTo 30 pyIsDot, RE.wb,
           altL [lit "didn't work", lit "not working", lit "can't", lit "cannot",
                 lit "stuck", lit "struggling", lit "drowning"], RE.wb],
    reCat [RE.wb,
           altL [lit "how do i", lit "how can i", lit "what should i do",
                 lit "any advice", lit "does anyone know"], RE.wb] ]

/-- `help_patterns` of the strict classifier (each pattern is itself an
alternation of several `\b`-wrapped phrases). -/
def helpPatsStrict : List RE :=
  [ altL [reCat [RE.wb, lit "how do i", RE.wb],
          reCat [RE.wb, lit "how can i", RE.wb],
          reCat [RE.wb, lit "what should i do", RE.wb]],
    altL [reCat [RE.wb, lit "any advice", RE.wb],
          reCat [RE.wb, lit "any tips", RE.wb],
          reCat [RE.wb, lit "does anyone know", RE.wb]] ]

/-- `advice_phrases`. -/
def advicePhrases : List RE :=
  [ reCat [RE.wb, lit "you should", RE.wb],
    reCat [RE.wb, lit "you could", RE.wb],
    reCat [RE.wb, lit "i recommend", RE.wb],
    reCat [RE.wb, lit "you need to", RE.wb],
    reCat [RE.wb, lit "if i were you", RE.wb] ]

/-- Resolved-platitude tokens (substring matches). -/
def resolvedTokens : List Str :=
  [ lstr "best decision i ever made", lstr "worked great for me", lstr "all good now" ]

/-- `\b(can't|cannot|stuck|struggling)\b` (the explicit needs-resolution
fallback). -/
def needsResolutionPat : RE :=
  reCat [RE.wb, altL [lit "can't", lit "cannot", lit "stuck", lit "struggling"], RE.wb]

/-- The category regexes, in the fixed priority order of the source's
`if`/`elif` chain. -/
def catCashflowPat : RE :=
  reCat [RE.wb,
         altL [lit "cash flow", lit "payroll", lit "overhead", lit "expenses",
               reCat [lit "margin", RE.opt (RE.ch 's')], lit "revenue", lit "profit",
               lit "pricing", lit "invoice",
               reCat [lit "net", sStar, altL [lit "30", lit "45", lit "60", lit "90"]],
               reCat [lit "account", RE.opt (RE.ch 's'), sP, lit "receivable"],
               lit "line of credit"],
         RE.wb]

/-- Staffing category regex. -/
def catStaffingPat : RE :=
  reCat [RE.wb,
         altL [lit "hire", lit "hiring", lit "employee", lit "staff", lit "team",
               lit "turnover", lit "quit", lit "recruit"], RE.wb]

/-- Operations/systems category regex. -/
def catOpsPat : RE :=
  reCat [RE.wb,
         altL [reCat [lit "system", RE.opt (RE.ch 's')], lit "process", lit "workflow",
               lit "manual", reCat [lit "operation", RE.opt (RE.ch 's')], lit "sop",
               lit "accounting setup"], RE.wb]

/-- Marketing/growth category regex. -/
def catMarketingPat : RE :=
  reCat [RE.wb,
         altL [lit "marketing", reCat [lit "ad", RE.opt (RE.ch 's')],
               reCat [lit "lead", RE.opt (RE.ch 's')], lit "seo", lit "campaign",
               reCat [lit "subscriber", RE.opt (RE.ch 's')], lit "conversion"], RE.wb]

/-- Legal/compliance category regex. -/
def catLegalPat : RE :=
  reCat [RE.wb,
         altL [lit "tax", lit "irs", lit "legal", lit "lawyer", lit "lawsuit",
               lit "compliance", lit "contract"], RE.wb]

/-- Founder-burnout category regex. -/
def catBurnoutPat : RE :=
  reCat [RE.wb,
         altL [lit "exhausted", lit "burned out", lit "burnout", lit "overwhelmed",
               lit "stressed"], RE.wb]

/-- Customer-management category regex. -/
def catCustomerPat : RE :=
  reCat [RE.wb,
         altL [lit "customer", lit "client", lit "refund", lit "chargeback",
               lit "review"], RE.wb]

/-- The category `if`/`elif` chain of the strict classifier: the FIRST
matching rule in fixed priority order wins; `general_business_pain` is the
fallback. -/
def assignCategory (tl : Str) : Category :=
  if reSearch catCashflowPat tl then Category.cash_flow_finance
  else if reSearch catStaffingPat tl then Category.staffing
  else if reSearch catOpsPat tl then Category.operations_systems
  else if reSearch catMarketingPat tl then Category.marketing_growth
  else if reSearch catLegalPat tl then Category.legal_compliance
  else if reSearch catBurnoutPat tl then Category.founder_burnout
  else if reSearch catCustomerPat tl then Category.customer_management
  else Category.general_business_pain

/-- The final gate sequence of the strict classifier (the tail of
`is_substantive_pain_expression` after the pain score and feature flags
are computed): own-context, problem-signal and needs-resolution gates, the
minimum-score gate, then acceptance with the first-match category. -/
def finalGates (tl : Str) (ownContext problemSignal needsResolution : Bool)
    (painScore minScore : Int) (matchedFeatures : List Str) :
    Bool × Option Category × Int × Str :=
  if !ownContext then
    (false, none, painScore, lstr "No clear own-experience context")
  else if !problemSignal then
    (false, none, painScore, lstr "No concrete pain indicators")
  else if !needsResolution then
    (false, none, painScore, lstr "Not clearly unresolved")
  else if painScore < minScore then
    (false, none, painScore,
     lstr "Pain score too low (" ++ formatScore painScore ++ lstr " < " ++
       formatScore minScore ++ lstr ")")
  else
    (true, some (assignCategory tl), painScore,
     lstr "APPROVED (" ++ joinSep (lstr ", ") (matchedFeatures.take 4) ++ lstr ")")

/-- The pain-score accumulation phase of the strict classifier (the part
of `is_substantive_pain_expression` after all its early reject gates):
own-context detection, the five scored pattern clusters, the advice and
resolved penalties, and the final gates.  All of its inputs are derived
from the lowercased text, exactly as in the source. -/
def classifierScorePhase (tl : Str) (minScore : Int) :
    Bool × Option Category × Int × Str :=
  let fp := reCount fpPat tl
  let ownContext :=
    ownContextPats.any (fun p => reSearch p tl) ||
      (fp ≥ 3 && reSearch businessContextPat tl)
  let fpPainHits := fpPainPats.countP (fun p => reSearch p tl)
  let impactHits := impactPatsStrict.countP (fun p => reSearch p tl)
  let unresolvedHits := unresolvedPats.countP (fun p => reSearch p tl)
  let helpHits := helpPatsStrict.countP (fun p => reSearch p tl)
  let attemptB := reSearch attemptPat tl
  let adviceHits := advicePhrases.countP (fun p => reSearch p tl)
  let resolvedB := resolvedTokens.any (fun t => containsSub tl t)
  let painScore : Int :=
    (if ownContext then 20 else 0) +
    (if fpPainHits > 0 then (fpPainHits : Int) * 22 else 0) +
    (if impactHits > 0 then (impactHits : Int) * 28 else 0) +
    (if unresolvedHits > 0 then min ((unresolvedHits : Int) * 12) 36 else 0) +
    (if helpHits > 0 then min ((helpHits : Int) * 13) 26 else 0) +
    (if attemptB then 18 else 0) -
    (if adviceHits > 0 then min ((adviceHits : Int) * 15) 45 else 0) -
    (if resolvedB then 25 else 0)
  let matchedFeatures : List Str :=
    (if ownContext then [lstr "own_context"] else []) ++
    (if fpPainHits > 0 then [lstr "first_person_pain"] else []) ++
    (if impactHits > 0 then [lstr "business_impact"] else []) ++
    (if unresolvedHits > 0 then [lstr "unresolved"] else []) ++
    (if helpHits > 0 then [lstr "help_request"] else []) ++
    (if attemptB then [lstr "attempt_failed"] else [])
  let problemSignal := decide (fpPainHits + impactHits + unresolvedHits > 0)
  let needsResolution :=
    decide (unresolvedHits > 0) || decide (helpHits > 0) || reSearch needsResolutionPat tl
  finalGates tl ownContext problemSignal needsResolution painScore minScore
    matchedFeatures

/-- `is_substantive_pain_expression` from the source.  Returns
`(is_pain, category, score, reason)`; scores are scaled by 10, so the
default `min_score = STRICT_CLASSIFIER_MIN_SCORE = 6.0` is `60`. -/
def is_substantive_pain_expression (text title : Str) (minScore : Int) :
    Bool × Option Category × Int × Str :=
  let tl := lowerStr text
  let titleL := lowerStr title
  let sentences := get_sentences text
  if sentences.length < 2 then (false, none, 0, lstr "Less than 2 sentences")
  else if hardSkipKeywords.any (fun k => containsSub titleL k) then
    (false, none, 0, lstr "Meta/promo thread")
  else if !(low_quality_text_reason text).isEmpty then
    (false, none, 0, low_quality_text_reason text)
  else if containsSub tl (lstr "i am a bot") ||
          containsSub tl (lstr "this action was performed automatically") then
    (false, none, 0, lstr "Bot message")
  else if promoPats.any (fun p => reSearch p tl) then
    (false, none, 0, lstr "Self-promotion")
  else if modNoticePatsStrict.any (fun p => reSearch p tl) then
    (false, none, 0, lstr "Moderator notice")
  else
    let fp := reCount fpPat tl
    let sp := reCount spPat tl
    let firstSentence := lowerStr (sentences.headD [])
    if (adviceStartPats.any (fun p => reMatchStart p firstSentence)) && fp ≤ 1 then
      (false, none, 0, lstr "Pure advice")
    else if sp ≥ fp + 3 && sp ≥ 4 then
      (false, none, 0, lstr "Advice-dominant (second-person)")
    else if fp = 0 && reSearch thirdPersonPat tl then
      (false, none, 0, lstr "About someone else's experience")
    else classifierScorePhase tl minScore

/-!  ## Deduplication: `normalize_text`, `calculate_similarity`, `is_too_similar`

`calculate_similarity` uses `difflib.SequenceMatcher(None, a, b).ratio()`.
That algorithm is reproduced below: `find_longest_match` over a `b2j`
index (with difflib's default autojunk rule: for `len(b) ≥ 200`, characters
occurring more than `len(b)//100 + 1` times in `b` are dropped from the
index, though matches may still extend over them), recursive splitting
around each longest block, and `ratio = 2*M/T` (with `ratio = 1` when both
strings are empty, as in difflib's `_calculate_ratio`).  The comparison
`ratio >= SIMILARITY_THRESHOLD` (0.75) is exact in rationals. -/

/-- `SIMILARITY_THRESHOLD = 0.75` (exactly representable as a float). -/
def SIMILARITY_THRESHOLD : ℚ := 3 / 4

/-- Match a URL (`http[s]?://\S+`) at the start of the string, returning the
suffix after the match.  The optional `s` is tried first (greedy), exactly
as Python's `[s]?` backtracks. -/
def matchURL (l : Str) : Option Str :=
  if startsWith (lstr "https://") l then
    match l.drop 8 with
    | c :: rest => if !pyIsWS c then some ((c :: rest).dropWhile (fun d => !pyIsWS d)) else none
    | [] => none
  else if startsWith (lstr "http://") l then
    match l.drop 7 with
    | c :: rest => if !pyIsWS c then some ((c :: rest).dropWhile (fun d => !pyIsWS d)) else none
    | [] => none
  else none

/-- `startsWith p l = true` forces `l` to be at least as long as `p`. -/
theorem startsWith_length_le : ∀ p l : Str, startsWith p l = true → p.length ≤ l.length
  | [], _, _ => Nat.zero_le _
  | _ :: _, [], h => by simp [startsWith] at h
  | p :: ps, c :: cs, h => by
    simp only [startsWith, Bool.and_eq_true] at h
    simpa using startsWith_length_le ps cs h.2

/-- A URL match strictly shortens the string (termination helper). -/
theorem matchURL_length_lt (l r : Str) (h : matchURL l = some r) :
    r.length < l.length := by
  unfold matchURL at h
  by_cases h8 : startsWith (lstr "https://") l = true
  · simp only [h8, if_true] at h
    have hlen : 8 ≤ l.length := startsWith_length_le _ _ h8
    rcases hd : l.drop 8 with _ | ⟨c, rest⟩
    · rw [hd] at h; exact absurd h (by simp)
    · rw [hd] at h
      by_cases hc : pyIsWS c = true
      · simp [hc] at h
      · simp only [hc, Bool.not_false, if_true] at h
        obtain rfl : ((c :: rest).dropWhile fun d => !pyIsWS d) = r := Option.some.inj h
        have hle := length_dropWhile_le' (fun d => !pyIsWS d) (c :: rest)
        have hdl : (l.drop 8).length = l.length - 8 := List.length_drop 8 l
        rw [hd] at hdl
        simp only [List.length_cons] at hdl hle
        omega
  · simp only [h8, if_false] at h
    by_cases h7 : startsWith (lstr "http://") l = true
    · simp only [h7, if_true] at h
      have hlen : 7 ≤ l.length := startsWith_length_le _ _ h7
      rcases hd : l.drop 7 with _ | ⟨c, rest⟩
      · rw [hd] at h; exact absurd h (by simp)
      · rw [hd] at h
        by_cases hc : pyIsWS c = true
        · simp [hc] at h
        · simp only [hc, Bool.not_false, if_true] at h
          obtain rfl : ((c :: rest).dropWhile fun d => !pyIsWS d) = r := Option.some.inj h
          have hle := length_dropWhile_le' (fun d => !pyIsWS d) (c :: rest)
          have hdl : (l.drop 7).length = l.length - 7 := List.length_drop 7 l
          rw [hd] at hdl
          simp only [List.length_cons] at hdl hle
          omega
    · simp [h7] at h

/-- `re.sub(r'http[s]?://\S+', '', text)`: remove every non-overlapping URL
match, scanning left to right.  Every step strictly shortens the string
(`matchURL_length_lt`), so the initial fuel `l.length + 1` of `removeURLs`
is always sufficient and the fuel-exhaustion branch is unreachable. -/
def removeURLsF : Nat → Str → Str
  | 0, l => l
  | _, [] => []
  | fuel + 1, c :: rest =>
    match matchURL (c :: rest) with
    | some r => removeURLsF fuel r
    | none => c :: removeURLsF fuel rest

/-- `re.sub(r'http[s]?://\S+', '', text)`. -/
def removeURLs (l : Str) : Str :=
  removeURLsF (l.length + 1) l

/-- `re.sub(r'\s+', ' ', text)`: collapse whitespace runs to single spaces.
The flag records whether the previous character was whitespace. -/
def collapseWS : Bool → Str → Str
  | _, [] => []
  | prevWS, c :: rest =>
    if pyIsWS c then
      if prevWS then collapseWS true rest else ' ' :: collapseWS true rest
    else c :: collapseWS false rest

/-- `normalize_text` from the source: strip URLs, collapse whitespace,
lowercase, strip. -/
def normalize_text (text : Str) : Str :=
  stripWS (lowerStr (collapseWS false (removeURLs text)))

/-- Ascending occurrence indices of `c` in a string, starting at `i`. -/
def occIdx (c : Char) : Str → Nat → List Nat
  | [], _ => []
  | x :: rest, i => if x = c then i :: occIdx c rest (i + 1) else occIdx c rest (i + 1)

/-- difflib's `b2j` index for `b`, including the default autojunk rule. -/
def b2j (b : Str) (c : Char) : List Nat :=
  if b.length ≥ 200 ∧ b.count c > b.length / 100 + 1 then [] else occIdx c b 0

/-- The inner loop of `find_longest_match`: walk the ascending occurrence
indices of `a[i]` in `b` (skipping `j < blo`, breaking at `j ≥ bhi`),
building the new `j2len` row and updating the best block. -/
def flmInner (i blo bhi : Nat) (j2len : List (Nat × Nat)) :
    List Nat → List (Nat × Nat) → Nat × Nat × Nat → List (Nat × Nat) × (Nat × Nat × Nat)
  | [], acc, best => (acc, best)
  | j :: rest, acc, best =>
    if j < blo then flmInner i blo bhi j2len rest acc best
    else if j ≥ bhi then (acc, best)
    else
      let k := (if j = 0 then 0 else (j2len.lookup (j - 1)).getD 0) + 1
      let best' := if k > best.2.2 then (i + 1 - k, j + 1 - k, k) else best
      flmInner i blo bhi j2len rest ((j, k) :: acc) best'

/-- The row loop of `find_longest_match`. -/
def flmRows (a b : Str) (blo bhi : Nat) :
    List Nat → List (Nat × Nat) → Nat × Nat × Nat → Nat × Nat × Nat
  | [], _, best => best
  | i :: irest, j2len, best =>
    let (newj2len, best') := flmInner i blo bhi j2len (b2j b (a.getD i ' ')) [] best
    flmRows a b blo bhi irest newj2len best'

/-- Extend the best block to the left over equal characters (difflib's
first extension loop; the junk loops are no-ops since `isjunk` is `None`,
leaving `self.bjunk` empty).  Each step decrements `besti`, so fuel
`besti` is always sufficient (once `besti = 0` the guard fails anyway). -/
def extendLeft (a b : Str) (alo blo : Nat) : Nat → Nat × Nat × Nat → Nat × Nat × Nat
  | 0, t => t
  | fuel + 1, (besti, bestj, bestsize) =>
    if alo < besti ∧ blo < bestj ∧ a.getD (besti - 1) ' ' = b.getD (bestj - 1) ' ' then
      extendLeft a b alo blo fuel (besti - 1, bestj - 1, bestsize + 1)
    else (besti, bestj, bestsize)

/-- Extend the best block to the right over equal characters.  Each step
increments `bestsize` while `besti + bestsize < ahi`, so fuel `ahi` is
always sufficient. -/
def extendRight (a b : Str) (ahi bhi : Nat) : Nat → Nat × Nat × Nat → Nat × Nat × Nat
  | 0, t => t
  | fuel + 1, (besti, bestj, bestsize) =>
    if besti + bestsize < ahi ∧ bestj + bestsize < bhi ∧
        a.getD (besti + bestsize) ' ' = b.getD (bestj + bestsize) ' ' then
      extendRight a b ahi bhi fuel (besti, bestj, bestsize + 1)
    else (besti, bestj, bestsize)

/-- difflib's `find_longest_match(alo, ahi, blo, bhi)` on `a`, `b`. -/
def find_longest_match (a b : Str) (alo ahi blo bhi : Nat) : Nat × Nat × Nat :=
  let best := flmRows a b blo bhi (List.range' alo (ahi - alo)) [] (alo, blo, 0)
  extendRight a b ahi bhi ahi (extendLeft a b alo blo best.1 best)

/-- The total size of all matching blocks (the `M` of `ratio = 2M/T`),
computed by difflib's recursive splitting around each longest match.  The
fuel decreases on each recursive call; `(ahi-alo) + (bhi-blo)` shrinks by
at least one per level, so the initial fuel `a.length + b.length + 1` is
always sufficient. -/
def matchSum (a b : Str) : Nat → Nat → Nat → Nat → Nat → Nat
  | 0, _, _, _, _ => 0
  | fuel + 1, alo, ahi, blo, bhi =>
    let r := find_longest_match a b alo ahi blo bhi
    if r.2.2 = 0 then 0
    else
      r.2.2 + matchSum a b fuel alo r.1 blo r.2.1 +
        matchSum a b fuel (r.1 + r.2.2) ahi (r.2.1 + r.2.2) bhi

/-- `SequenceMatcher(None, a, b)`: total matched size. -/
def matchingTotal (a b : Str) : Nat :=
  matchSum a b (a.length + b.length + 1) 0 a.length 0 b.length

/-- `SequenceMatcher(None, a, b).ratio()` as an exact rational (difflib
returns `1.0` when both strings are empty). -/
def seqRatio (a b : Str) : ℚ :=
  if a.length + b.length = 0 then 1
  else 2 * (matchingTotal a b : ℚ) / ((a.length : ℚ) + (b.length : ℚ))

/-- `calculate_similarity` from the source, as an exact rational. -/
def calculate_similarity (t1 t2 : Str) : ℚ :=
  seqRatio (normalize_text t1) (normalize_text t2)

/-- The window `is_too_similar` actually scans: the most recent 50 texts. -/
def dedupWindow (existing : List Str) : List Str :=
  if existing.length > 50 then existing.drop (existing.length - 50) else existing

/-- `is_too_similar` from the source. -/
def is_too_similar (newText : Str) (existing : List Str) : Bool :=
  (dedupWindow existing).any (fun e =>
    decide (calculate_similarity newText e ≥ SIMILARITY_THRESHOLD))

/-!  ## The adaptive threshold controller (main loop, lines 944–953)  -/

/-- `PRE_RANK_MIN_SCORE = 6` (scaled by 10). -/
def PRE_RANK_MIN_SCORE : Int := 60

/-- `STRICT_CLASSIFIER_MIN_SCORE = 6.0` (scaled by 10). -/
def STRICT_CLASSIFIER_MIN_SCORE : Int := 60

/-- `ADAPTIVE_PRE_RANK_MIN_SCORE = 5.0` (scaled by 10). -/
def ADAPTIVE_PRE_RANK_MIN_SCORE : Int := 50

/-- `ADAPTIVE_CLASSIFIER_MIN_SCORE = 5.2` (scaled by 10). -/
def ADAPTIVE_CLASSIFIER_MIN_SCORE : Int := 52

/-- `ADAPTIVE_RELAX_TRIGGER_PROGRESS = 0.55`. -/
def ADAPTIVE_RELAX_TRIGGER_PROGRESS : ℚ := 55 / 100

/-- `ADAPTIVE_RELAX_MIN_COLLECTED_RATIO = 0.35`. -/
def ADAPTIVE_RELAX_MIN_COLLECTED_RATIO : ℚ := 35 / 100

/-- The per-thread threshold computation of the main loop:
`progress_ratio = thread_idx / max(len(THREAD_URLS), 1)`,
`collected_ratio = collected_so_far / max(TARGET_COMMENTS, 1)`, relaxed
mode iff `progress_ratio ≥ 0.55 and collected_ratio < 0.35`, and the pair
of minimums used for that thread.  Float ratio comparisons are modelled by
the exact rational ones (they agree: see the header note). -/
def adaptiveThresholds (threadIdx totalThreads collected target : Nat) :
    Bool × Int × Int :=
  let progressRatio : ℚ := (threadIdx : ℚ) / ((max totalThreads 1 : Nat) : ℚ)
  let collectedRatio : ℚ := (collected : ℚ) / ((max target 1 : Nat) : ℚ)
  let relaxed : Bool :=
    decide (progressRatio ≥ ADAPTIVE_RELAX_TRIGGER_PROGRESS) &&
      decide (collectedRatio < ADAPTIVE_RELAX_MIN_COLLECTED_RATIO)
  (relaxed,
   if relaxed then ADAPTIVE_PRE_RANK_MIN_SCORE else PRE_RANK_MIN_SCORE,
   if relaxed then ADAPTIVE_CLASSIFIER_MIN_SCORE else STRICT_CLASSIFIER_MIN_SCORE)

/-!  ## `discover_threads` (scoring, filtering and sorting; the network
fetch that produces the raw post list is an external collaborator)  -/

/-- The fields of a raw reddit post that the discovery scoring reads. -/
structure PostData where
  title : Str
  selftext : Str
  score : Int
  num_comments : Nat
deriving Repr, DecidableEq

/-- A scored thread candidate (the dict appended to `discovered`).
`combined_score` holds the combined score scaled by 500 — every term of
`relevance*2.5 + clamp(upvotes,0,3000)/250 + clamp(comments,0,400)/20`
becomes an exact integer at that scale (see `combined500Of` and
`combinedScoreOf`). -/
structure ThreadCand where
  title : Str
  score : Int
  num_comments : Nat
  relevance_score : Int
  matched_keywords : List Str
  combined_score : Int
deriving Repr, DecidableEq

/-- `HIGH_VALUE_KEYWORDS` (worth 10 points each). -/
def HIGH_VALUE_KEYWORDS : List Str :=
  [ lstr "can't", lstr "cannot", lstr "unable", lstr "fail", lstr "failed",
    lstr "failing", lstr "help me", lstr "please help", lstr "need help",
    lstr "struggling", lstr "frustrated", lstr "frustrating", lstr "annoying",
    lstr "hate", lstr "ruined", lstr "disaster", lstr "messed up",
    lstr "went wrong", lstr "what am i doing wrong", lstr "why won't",
    lstr "why can't", lstr "losing money", lstr "losing customers",
    lstr "going bankrupt", lstr "can't afford", lstr "running out",
    lstr "desperate" ]

/-- `MEDIUM_VALUE_KEYWORDS` (worth 5 points each). -/
def MEDIUM_VALUE_KEYWORDS : List Str :=
  [ lstr "how do i", lstr "how to", lstr "how can i", lstr "what do i",
    lstr "why does", lstr "why is", lstr "any advice", lstr "any tips",
    lstr "need advice", lstr "looking for help", lstr "suggestions",
    lstr "what should i", lstr "does anyone know", lstr "how should i",
    lstr "where do i", lstr "when should i" ]

/-- `LOW_VALUE_KEYWORDS` (worth 3 points each). -/
def LOW_VALUE_KEYWORDS : List Str :=
  [ lstr "help", lstr "problem", lstr "issue", lstr "trouble", lstr "difficulty",
    lstr "question", lstr "advice", lstr "tips", lstr "wrong", lstr "bad",
    lstr "don't know", lstr "no idea", lstr "confused", lstr "understand",
    lstr "concern", lstr "worried", lstr "stress", lstr "challenge" ]

/-- `BUSINESS_PROBLEM_KEYWORDS` (worth 7 points each). -/
def BUSINESS_PROBLEM_KEYWORDS : List Str :=
  [ lstr "cash flow", lstr "not selling", lstr "no sales", lstr "no customers",
    lstr "employees quit", lstr "can't hire", lstr "bad reviews", lstr "competitor",
    lstr "lawsuit", lstr "legal issue", lstr "tax problem", lstr "irs",
    lstr "slow season", lstr "lost client", lstr "customer complaint",
    lstr "pricing problem", lstr "too expensive", lstr "undercutting",
    lstr "marketing not working", lstr "no leads", lstr "overhead costs" ]

/-- `SKIP_KEYWORDS` (full exclusion: show-off posts). -/
def SKIP_KEYWORDS : List Str :=
  [ lstr "revenue milestone", lstr "just hit", lstr "celebrating",
    lstr "success story", lstr "finally made it", lstr "proud to announce",
    lstr "check out my business", lstr "shameless plug" ]

/-- `SOFT_META_THREAD_KEYWORDS` (soft −8 penalty). -/
def SOFT_META_THREAD_KEYWORDS : List Str :=
  [ lstr "share your", lstr "promotion thread", lstr "community thread",
    lstr "networking thread" ]

/-- `\b(i|my|we|our)\b`, the first-person-context signal of discovery. -/
def firstPersonCtxPat : RE :=
  reCat [RE.wb, altL [lit "i", lit "my", lit "we", lit "our"], RE.wb]

/-- The combined-score formula applied to every kept thread:
`relevance*2.5 + clamp(upvotes,0,3000)/250 + clamp(comments,0,400)/20`
(exact rationals model the float arithmetic). -/
def combinedScoreOf (relevance upvotes : Int) (numComments : Nat) : ℚ :=
  (relevance : ℚ) * 5 / 2 + ((min (max upvotes 0) 3000 : Int) : ℚ) / 250 +
    ((min numComments 400 : Nat) : ℚ) / 20

/-- The same combined score scaled by 500, which makes it an exact
integer: `500 * (r*2.5 + u/250 + c/20) = 1250*r + 2*u + 25*c`. -/
def combined500Of (relevance upvotes : Int) (numComments : Nat) : Int :=
  1250 * relevance + 2 * min (max upvotes 0) 3000 + 25 * (min numComments 400 : Nat)

/-- The searchable text of a post: `f"{title} {selftext}".lower()` with the
self text stripped at extraction. -/
def searchableOf (p : PostData) : Str :=
  lowerStr (p.title ++ [' '] ++ stripWS p.selftext)

/-- The relevance score of a post (the keyword-tier accumulation of the
discovery loop; the source computes score and tags in the same pass, split
here into `relevanceOf` and `tagsOf`). -/
def relevanceOf (p : PostData) : Int :=
  let searchable := searchableOf p
  10 * (HIGH_VALUE_KEYWORDS.filter (fun k => containsSub searchable k)).length +
    5 * (MEDIUM_VALUE_KEYWORDS.filter (fun k => containsSub searchable k)).length +
    3 * (LOW_VALUE_KEYWORDS.filter (fun k => containsSub searchable k)).length +
    7 * (BUSINESS_PROBLEM_KEYWORDS.filter (fun k => containsSub searchable k)).length +
    (if p.title.contains '?' then 2 else 0) +
    (if reSearch firstPersonCtxPat searchable then 2 else 0) +
    (if (stripWS p.selftext).length ≥ 200 then 1 else 0) -
    (if SOFT_META_THREAD_KEYWORDS.any (fun k => containsSub searchable k) then 8 else 0)

/-- The ordered matched-keyword tags of a post. -/
def tagsOf (p : PostData) : List Str :=
  let searchable := searchableOf p
  (HIGH_VALUE_KEYWORDS.filter (fun k => containsSub searchable k)).map
      (fun k => lstr "HIGH:" ++ k) ++
    (MEDIUM_VALUE_KEYWORDS.filter (fun k => containsSub searchable k)).map
      (fun k => lstr "MED:" ++ k) ++
    (LOW_VALUE_KEYWORDS.filter (fun k => containsSub searchable k)).map
      (fun k => lstr "LOW:" ++ k) ++
    (BUSINESS_PROBLEM_KEYWORDS.filter (fun k => containsSub searchable k)).map
      (fun k => lstr "BIZ:" ++ k) ++
    (if p.title.contains '?' then [lstr "SIG:question_title"] else []) ++
    (if reSearch firstPersonCtxPat searchable then [lstr "SIG:first_person_context"] else []) ++
    (if (stripWS p.selftext).length ≥ 200 then [lstr "SIG:detailed_context"] else []) ++
    (if SOFT_META_THREAD_KEYWORDS.any (fun k => containsSub searchable k) then
       [lstr "PENALTY:meta_thread"] else [])

/-- The candidate dict appended to `discovered` for a kept post. -/
def mkThreadCand (p : PostData) : ThreadCand :=
  { title := p.title, score := p.score, num_comments := p.num_comments,
    relevance_score := relevanceOf p,
    matched_keywords := if (tagsOf p).isEmpty then [lstr "NONE:general"] else tagsOf p,
    combined_score := combined500Of (relevanceOf p) p.score p.num_comments }

/-- One iteration of the discovery loop: filter and score a single post,
returning the candidate dict when the post is kept. -/
def discoverStep (minComments : Nat) (p : PostData) : Option ThreadCand :=
  if p.num_comments < minComments then none
  else if SKIP_KEYWORDS.any (fun k => containsSub (searchableOf p) k) then none
  else if hardSkipKeywords.any (fun k => containsSub (searchableOf p) k) then none
  else if relevanceOf p ≤ 0 ∧ p.num_comments < 2 * minComments then none
  else some (mkThreadCand p)

/-- The sort order of `discovered.sort(key=..., reverse=True)` on
discovery-index-tagged candidates: higher combined score first, ties in
discovery order.  Python's sort is stable, so its output is sorted exactly
by this relation on `(index, candidate)` pairs. -/
def discSortRel (x y : Nat × ThreadCand) : Prop :=
  y.2.combined_score < x.2.combined_score ∨
    (x.2.combined_score = y.2.combined_score ∧ x.1 ≤ y.1)

instance : DecidableRel discSortRel := fun x y => by
  unfold discSortRel; infer_instance

instance : IsTotal (Nat × ThreadCand) discSortRel := by
  constructor
  intro a b
  unfold discSortRel
  rcases lt_trichotomy a.2.combined_score b.2.combined_score with h | h | h
  · exact Or.inr (Or.inl h)
  · rcases Nat.le_total a.1 b.1 with hi | hi
    · exact Or.inl (Or.inr ⟨h, hi⟩)
    · exact Or.inr (Or.inr ⟨h.symm, hi⟩)
  · exact Or.inl (Or.inl h)

instance : IsTrans (Nat × ThreadCand) discSortRel := by
  constructor
  intro a b c hab hbc
  unfold discSortRel at *
  rcases hab with h1 | ⟨h1, hi1⟩ <;> rcases hbc with h2 | ⟨h2, hi2⟩
  · exact Or.inl (lt_trans h2 h1)
  · exact Or.inl (h2 ▸ h1)
  · exact Or.inl (h1 ▸ h2)
  · exact Or.inr ⟨h1.trans h2, hi1.trans hi2⟩

/-- `discover_threads` (scoring part) from the source: filter and score the
raw posts in discovery order, then sort by combined score, highest first,
stably.  The output keeps each candidate tagged with its discovery index;
Python's stable `list.sort` produces exactly the order of this (unique)
sort by `discSortRel`. -/
def discover_threads (posts : List PostData) (minComments : Nat) :
    List (Nat × ThreadCand) :=
  List.insertionSort discSortRel (posts.filterMap (discoverStep minComments)).enum

/-!  ## Concrete inputs used by the claims  -/

/-- The body of end-to-end example 1. -/
def body1 : Str := lstr "I can't figure out why my customers keep leaving bad reviews, I'm so frustrated and losing money every month. I've tried everything but nothing works."

/-- A body the strict classifier accepts that matches both the cash-flow
and the staffing category vocabulary. -/
def tBoth : Str := lstr "My business is struggling. I can't pay payroll and my staff quit. How do I fix this? I still cannot figure it out."

/-- A body that passes both the hard-negative and the quality filter yet
collects the advice-opening (−6), second-person-dominance (−5),
success-lexicon (−6) and promotional-URL (−4) penalties. -/
def t10 : Str := lstr "You should buy now. You hit your milestone, congrats to you. See https://example.com today?"

/-- The part of the monotonicity counterexample before the insertion
point.  The gap between `tried` and `but` in `t7a` is 86 characters. -/
def pre7 : Str := lstr "I tried qqqq wwww eeee rrrr tttt yyyy uuuu oooo pppp aaaa ssss dddd ffff "

/-- The part of the monotonicity counterexample after the insertion point. -/
def suf7 : Str := lstr "gggg hhhh jjjj kkkk but cannot fix this mess. It is bad for sure."

/-- The original text: `i tried … but` with an 86-character gap, so the
`attempt_failed` pattern (`.{0,90}`) matches. -/
def t7a : Str := pre7 ++ suf7

/-- The same text with one more instance of the pain term `cannot`
inserted into the gap, stretching it to 93 characters: the
`attempt_failed` match is destroyed while the distinct-pain-term count is
unchanged (`cannot` already occurs in `suf7`). -/
def t7b : Str := pre7 ++ (lstr "cannot " ++ suf7)

/-- Small witness pair for pain-language monotonicity. -/
def t7w1 : Str := lstr "x cannot y"

/-- `t7w1` with one more `cannot`. -/
def t7w2 : Str := lstr "x cannot cannot y"

/-- A stickied comment with no author and no distinguished flag. -/
def stickiedComment : CommentM := ⟨[], [], true⟩

/-- A stickied AutoModerator comment that is also distinguished as a
moderator. -/
def autoModDistinguished : CommentM := ⟨lstr "AutoModerator", lstr "moderator", true⟩

/-- The normalization counterexample: an uppercase URL scheme survives the
first normalization pass (URL stripping is case-sensitive and precedes
lowercasing) and is stripped by the second. -/
def tC9 : Str := lstr "HTTP://a b"

/-!  ## Claims  -/

/-- Claim C2 (amended): for every comment whose lowercased author is
`automoderator` and that is stickied, every body, and every thread title
containing no hard-skip keyword, the hard-negative filter returns `true`
independently of the body; the reason is the automated-moderation reason
`"AutoModerator comment"` provided the comment is not distinguished as
moderator or admin (that earlier rule would otherwise fire first with its
own reason). -/
theorem claim_C2 (c : CommentM) (body title : Str)
    (hauthor : lowerStr c.author = lstr "automoderator")
    (_hsticky : c.stickied = true)
    (htitle : ∀ k ∈ hardSkipKeywords, containsSub (lowerStr title) k = false)
    (hd1 : lowerStr c.distinguished ≠ lstr "moderator")
    (hd2 : lowerStr c.distinguished ≠ lstr "admin") :
    is_hard_negative_comment c body title = (true, lstr "AutoModerator comment") := by
  have hany : (hardSkipKeywords.any fun k => containsSub (lowerStr title) k) = false := by
    rw [List.any_eq_false]
    intro k hk
    simp [htitle k hk]
  simp only [is_hard_negative_comment]
  rw [hany]
  simp only [Bool.false_eq_true, if_false]
  rw [if_neg (by rintro (h | h) <;> [exact hd1 h; exact hd2 h])]
  rw [if_pos hauthor]

/-- Claim C2, counterexample to the claim as stated: a stickied comment
authored by AutoModerator that is also distinguished as a moderator is
rejected with the moderator/admin reason, not the automated-moderation
reason. -/
theorem claim_C2_counterexample :
    (is_hard_negative_comment autoModDistinguished (lstr "any body text") []).1 = true ∧
    (is_hard_negative_comment autoModDistinguished (lstr "any body text") []).2 ≠
      lstr "AutoModerator comment" := by
  constructor
  · decide
  · decide

/-- Claim C2, witness. -/
theorem claim_C2_witness :
    is_hard_negative_comment ⟨lstr "AutoModerator", [], true⟩ (lstr "any body text") [] =
      (true, lstr "AutoModerator comment") :=
  claim_C2 ⟨lstr "AutoModerator", [], true⟩ (lstr "any body text") []
    (by decide) (by decide) (by decide) (by decide) (by decide)

/-- Claim C6: the pre-rank scorer is a total function (it is defined for
every input and never throws by construction); when the hard-negative
filter would reject the input it returns exactly the sentinel −20 (−200
scaled) with a tag naming the reason, and otherwise, when the text-quality
filter flags an issue, it returns exactly −12 (−120 scaled) with a tag
naming the issue. -/
theorem claim_C6 (text title : Str) (c : CommentM) :
    ((is_hard_negative_comment c text title).1 = true →
      rank_comment_pain_potential text title c =
        (-200, [lstr "hard_negative:" ++ (is_hard_negative_comment c text title).2])) ∧
    ((is_hard_negative_comment c text title).1 = false →
      low_quality_text_reason text ≠ [] →
      rank_comment_pain_potential text title c =
        (-120, [lstr "low_quality:" ++ low_quality_text_reason text])) := by
  constructor
  · intro h
    simp only [rank_comment_pain_potential]
    rw [h]
    simp
  · intro h hq
    simp only [rank_comment_pain_potential]
    rw [h]
    simp only [Bool.false_eq_true, if_false]
    have : (low_quality_text_reason text).isEmpty = false := by
      cases hql : low_quality_text_reason text with
      | nil => exact absurd hql hq
      | cons a l => simp
    rw [this]
    simp

/-- Claim C6, witness: a stickied comment hits the −200 sentinel with the
hard-negative tag; an empty body hits the −120 sentinel with the quality
tag. -/
theorem claim_C6_witness :
    rank_comment_pain_potential (lstr "whatever body") [] stickiedComment =
      (-200, [lstr "hard_negative:" ++ lstr "Stickied moderator comment"]) ∧
    rank_comment_pain_potential [] [] emptyComment =
      (-120, [lstr "low_quality:" ++ lstr "No meaningful content"]) := by
  constructor
  · rw [(claim_C6 (lstr "whatever body") [] stickiedComment).1 (by decide)]
    decide
  · rw [(claim_C6 [] [] emptyComment).2 (by decide) (by decide)]
    decide

/-- Claim C7 (amended): the pain-language component of the pre-rank score
is monotone — a text whose matched pain terms include those of another
scores at least as much on that component (in particular, adding one more
instance of a pain term never lowers it).  The full pre-rank score is NOT
monotone under such insertion; see the counterexample. -/
theorem claim_C7 (t1 t2 : Str)
    (h : ∀ term ∈ painTerms, containsSub t1 term = true → containsSub t2 term = true) :
    painLanguageComponent t1 ≤ painLanguageComponent t2 := by
  have hc : painTermHits t1 ≤ painTermHits t2 := by
    unfold painTermHits
    exact List.countP_mono_left h
  have hci : (painTermHits t1 : Int) ≤ (painTermHits t2 : Int) := by exact_mod_cast hc
  unfold painLanguageComponent
  split_ifs with h1 h2 h3 <;> omega

/-- Claim C7, witness for the amended monotonicity statement. -/
theorem claim_C7_witness :
    (∀ term ∈ painTerms, containsSub t7w1 term = true → containsSub t7w2 term = true) ∧
    painLanguageComponent t7w1 ≤ painLanguageComponent t7w2 :=
  ⟨by decide, claim_C7 t7w1 t7w2 (by decide)⟩

/-- Claim C7, counterexample to the claim as stated: inserting one more
instance of the recognized pain term `cannot` into `t7a` (which passes the
hard-negative and quality filters) widens the `.{0,90}` gap of the
`attempt_failed` pattern beyond 90 characters, losing its +3 while the
distinct-pain-term count is unchanged, so the pre-rank score drops from
6.5 to 3.5 (scaled: 65 to 35). -/
theorem claim_C7_counterexample :
    lstr "cannot" ∈ painTerms ∧
    t7a = pre7 ++ suf7 ∧
    t7b = pre7 ++ (lstr "cannot " ++ suf7) ∧
    (is_hard_negative_comment emptyComment t7a []).1 = false ∧
    low_quality_text_reason t7a = [] ∧
    (rank_comment_pain_potential t7b [] emptyComment).1 <
      (rank_comment_pain_potential t7a [] emptyComment).1 := by
  refine ⟨by decide, rfl, rfl, by decide, by decide, by decide⟩

/-- Claim C10: there is an input that passes both the hard-negative filter
and the text-quality filter on which the pre-rank scorer nevertheless
returns −21 ≤ −20 (scaled: −210 ≤ −200) — the advice-opening (−6),
second-person-dominance (−5), success-lexicon (−6) and promotional-URL
(−4) penalties combine — so a returned score of −20 or below does not
uniquely identify a hard-negative or quality rejection. -/
theorem claim_C10 :
    (is_hard_negative_comment emptyComment t10 []).1 = false ∧
    low_quality_text_reason t10 = [] ∧
    (rank_comment_pain_potential t10 [] emptyComment).1 = -210 ∧
    (rank_comment_pain_potential t10 [] emptyComment).1 ≤ -200 := by
  have h : (rank_comment_pain_potential t10 [] emptyComment).1 = -210 := by decide
  exact ⟨by decide, by decide, h, by rw [h]; norm_num⟩

/-- Claim C4: the dedup window really is the most recent 50 accepted texts,
a candidate whose similarity ratio against some window member reaches the
0.75 threshold is rejected as a duplicate, and a candidate whose ratio
stays below the threshold against every window member is not rejected on
dedup grounds. -/
theorem claim_C4 (newText : Str) (existing : List Str) :
    dedupWindow existing = existing.drop (existing.length - 50) ∧
    ((∃ t ∈ dedupWindow existing,
        calculate_similarity newText t ≥ SIMILARITY_THRESHOLD) →
      is_too_similar newText existing = true) ∧
    ((∀ t ∈ dedupWindow existing,
        calculate_similarity newText t < SIMILARITY_THRESHOLD) →
      is_too_similar newText existing = false) := by
  refine ⟨?_, ?_, ?_⟩
  · unfold dedupWindow
    split_ifs with h
    · rfl
    · have h0 : existing.length - 50 = 0 := by omega
      rw [h0, List.drop_zero]
  · rintro ⟨t, ht, hsim⟩
    unfold is_too_similar
    rw [List.any_eq_true]
    exact ⟨t, ht, by simpa using hsim⟩
  · intro hall
    unfold is_too_similar
    rw [List.any_eq_false]
    intro t ht
    simp only [decide_eq_true_eq]
    exact not_le.mpr (hall t ht)

/-- Claim C4, witness: an identical text (ratio 1) is rejected against a
singleton window; an entirely different text (ratio 0) is not. -/
theorem claim_C4_witness :
    is_too_similar (lstr "abcd") [lstr "abcd"] = true ∧
    is_too_similar (lstr "qrst") [lstr "abcd"] = false := by
  have hn1 : normalize_text (lstr "abcd") = lstr "abcd" := by decide
  have hn2 : normalize_text (lstr "qrst") = lstr "qrst" := by decide
  have hm1 : matchingTotal (lstr "abcd") (lstr "abcd") = 4 := by decide
  have hm2 : matchingTotal (lstr "qrst") (lstr "abcd") = 0 := by decide
  constructor
  · refine (claim_C4 (lstr "abcd") [lstr "abcd"]).2.1 ⟨lstr "abcd", by decide, ?_⟩
    unfold calculate_similarity seqRatio SIMILARITY_THRESHOLD
    rw [hn1, hm1]
    norm_num [lstr]
  · refine (claim_C4 (lstr "qrst") [lstr "abcd"]).2.2 ?_
    intro t ht
    have ht' : t = lstr "abcd" := by
      have : dedupWindow [lstr "abcd"] = [lstr "abcd"] := by decide
      rw [this] at ht
      simpa using ht
    subst ht'
    unfold calculate_similarity seqRatio SIMILARITY_THRESHOLD
    rw [hn1, hn2, hm2]
    norm_num [lstr]

/-- Claim C5: the adaptive controller relaxes the thresholds exactly when
`progressRatio ≥ 0.55` and `collectedRatio < 0.35`; relaxed mode uses the
relaxed pre-rank and classifier minimums (5.0 and 5.2, scaled 50 and 52)
and strict mode the strict ones (6 and 6.0, scaled 60 and 60); in
particular `progressRatio = 0.6` with `collectedRatio = 0.2` relaxes, and
`progressRatio = 0.4` is strict for every collected ratio. -/
theorem claim_C5 (threadIdx totalThreads collected target : Nat) :
    ((adaptiveThresholds threadIdx totalThreads collected target).1 = true ↔
      ((threadIdx : ℚ) / ((max totalThreads 1 : Nat) : ℚ) ≥ ADAPTIVE_RELAX_TRIGGER_PROGRESS ∧
        (collected : ℚ) / ((max target 1 : Nat) : ℚ) < ADAPTIVE_RELAX_MIN_COLLECTED_RATIO)) ∧
    ((adaptiveThresholds threadIdx totalThreads collected target).1 = true →
      (adaptiveThresholds threadIdx totalThreads collected target).2 =
        (ADAPTIVE_PRE_RANK_MIN_SCORE, ADAPTIVE_CLASSIFIER_MIN_SCORE)) ∧
    ((adaptiveThresholds threadIdx totalThreads collected target).1 = false →
      (adaptiveThresholds threadIdx totalThreads collected target).2 =
        (PRE_RANK_MIN_SCORE, STRICT_CLASSIFIER_MIN_SCORE)) ∧
    ((threadIdx : ℚ) / ((max totalThreads 1 : Nat) : ℚ) = 6 / 10 →
      (collected : ℚ) / ((max target 1 : Nat) : ℚ) = 2 / 10 →
      (adaptiveThresholds threadIdx totalThreads collected target).1 = true) ∧
    ((threadIdx : ℚ) / ((max totalThreads 1 : Nat) : ℚ) = 4 / 10 →
      (adaptiveThresholds threadIdx totalThreads collected target).1 = false) := by
  have hiff : (adaptiveThresholds threadIdx totalThreads collected target).1 = true ↔
      ((threadIdx : ℚ) / ((max totalThreads 1 : Nat) : ℚ) ≥ ADAPTIVE_RELAX_TRIGGER_PROGRESS ∧
        (collected : ℚ) / ((max target 1 : Nat) : ℚ) < ADAPTIVE_RELAX_MIN_COLLECTED_RATIO) := by
    simp [adaptiveThresholds]
  refine ⟨hiff, ?_, ?_, ?_, ?_⟩
  · intro h
    simp only [adaptiveThresholds] at h ⊢
    rw [h]
    simp
  · intro h
    simp only [adaptiveThresholds] at h ⊢
    rw [h]
    simp
  · intro hp hc
    rw [hiff, hp, hc]
    unfold ADAPTIVE_RELAX_TRIGGER_PROGRESS ADAPTIVE_RELAX_MIN_COLLECTED_RATIO
    norm_num
  · intro hp
    rcases h : (adaptiveThresholds threadIdx totalThreads collected target).1 with _ | _
    · rfl
    · exfalso
      have := (hiff.mp h).1
      rw [hp] at this
      unfold ADAPTIVE_RELAX_TRIGGER_PROGRESS at this
      norm_num at this

/-- Claim C5, witness: 6 of 10 threads processed with 2 of 10 collected
(progress 0.6, collected 0.2) relaxes the thresholds to (50, 52); 4 of 10
threads processed is strict even for a fully uncollected target. -/
theorem claim_C5_witness :
    (adaptiveThresholds 6 10 2 10).1 = true ∧
    (adaptiveThresholds 6 10 2 10).2 =
      (ADAPTIVE_PRE_RANK_MIN_SCORE, ADAPTIVE_CLASSIFIER_MIN_SCORE) ∧
    (adaptiveThresholds 4 10 0 10).1 = false ∧
    (adaptiveThresholds 4 10 0 10).2 = (PRE_RANK_MIN_SCORE, STRICT_CLASSIFIER_MIN_SCORE) := by
  have h1 : (adaptiveThresholds 6 10 2 10).1 = true :=
    (claim_C5 6 10 2 10).2.2.2.1 (by norm_num) (by norm_num)
  have h2 : (adaptiveThresholds 4 10 0 10).1 = false :=
    (claim_C5 4 10 0 10).2.2.2.2 (by norm_num)
  exact ⟨h1, (claim_C5 6 10 2 10).2.1 h1, h2, (claim_C5 4 10 0 10).2.2.1 h2⟩

/-- The hard-negative filter ignores the title beyond the hard-skip check,
so a title with no hard-skip keyword behaves like the empty title. -/
theorem hard_negative_title_irrel (c : CommentM) (body title : Str)
    (h : (hardSkipKeywords.any fun k => containsSub (lowerStr title) k) = false) :
    is_hard_negative_comment c body title = is_hard_negative_comment c body [] := by
  simp only [is_hard_negative_comment]
  rw [h, (by decide : (hardSkipKeywords.any fun k => containsSub (lowerStr []) k) = false)]

/-- The strict classifier ignores the title beyond the hard-skip check,
so a title with no hard-skip keyword behaves like the empty title. -/
theorem substantive_title_irrel (text title : Str) (m : Int)
    (h : (hardSkipKeywords.any fun k => containsSub (lowerStr title) k) = false) :
    is_substantive_pain_expression text title m =
      is_substantive_pain_expression text [] m := by
  simp only [is_substantive_pain_expression]
  rw [h, (by decide : (hardSkipKeywords.any fun k => containsSub (lowerStr []) k) = false)]

/-- Claim C1 (amended): for the end-to-end example-1 body, under any
non-hard-skip thread title and the default strict minimum, the
hard-negative filter returns false and the text-quality filter passes, but
the strict classifier REJECTS the body with reason "No clear
own-experience context" (pain score 9.0): the body's business vocabulary
occurs only in plural forms ("customers", "reviews"), which the
word-boundary singular patterns of the own-context gate do not match. -/
theorem claim_C1 (title : Str)
    (h : ∀ k ∈ hardSkipKeywords, containsSub (lowerStr title) k = false) :
    is_hard_negative_comment emptyComment body1 title = (false, []) ∧
    low_quality_text_reason body1 = [] ∧
    is_substantive_pain_expression body1 title STRICT_CLASSIFIER_MIN_SCORE =
      (false, none, 90, lstr "No clear own-experience context") := by
  have hany : (hardSkipKeywords.any fun k => containsSub (lowerStr title) k) = false := by
    rw [List.any_eq_false]
    intro k hk
    simp [h k hk]
  refine ⟨?_, by decide, ?_⟩
  · rw [hard_negative_title_irrel _ _ _ hany]
    decide
  · rw [substantive_title_irrel _ _ _ hany]
    decide

/-- Claim C1, counterexample to the claim as stated: on the example-1 body
(empty, hard-skip-free title, strict minimum 6.0) the hard-negative and
quality filters do pass, but the strict classifier does NOT accept — its
verdict is false with reason "No clear own-experience context" — so no
`cash_flow_finance` acceptance occurs. -/
theorem claim_C1_counterexample :
    (is_hard_negative_comment emptyComment body1 []).1 = false ∧
    low_quality_text_reason body1 = [] ∧
    (is_substantive_pain_expression body1 [] STRICT_CLASSIFIER_MIN_SCORE).1 = false ∧
    (is_substantive_pain_expression body1 [] STRICT_CLASSIFIER_MIN_SCORE).2.2.2 =
      lstr "No clear own-experience context" := by
  have h : is_substantive_pain_expression body1 [] STRICT_CLASSIFIER_MIN_SCORE =
      (false, none, 90, lstr "No clear own-experience context") := by decide
  exact ⟨by decide, by decide, by rw [h], by rw [h]⟩

/-- Claim C1, witness for the amended statement at the empty title. -/
theorem claim_C1_witness :
    is_hard_negative_comment emptyComment body1 [] = (false, []) ∧
    is_substantive_pain_expression body1 [] STRICT_CLASSIFIER_MIN_SCORE =
      (false, none, 90, lstr "No clear own-experience context") :=
  ⟨(claim_C1 [] (by decide)).1, (claim_C1 [] (by decide)).2.2⟩

/-- The final gates assign the first-match category on acceptance. -/
theorem finalGates_category (tl : Str) (oc ps nr : Bool) (sc ms : Int)
    (mf : List Str) (hf : (finalGates tl oc ps nr sc ms mf).1 = true) :
    (finalGates tl oc ps nr sc ms mf).2.1 = some (assignCategory tl) := by
  unfold finalGates at hf ⊢
  split_ifs at hf ⊢ <;> first | exact Bool.noConfusion hf | rfl

/-- The score phase assigns the first-match category on acceptance. -/
theorem scorePhase_category (tl : Str) (m : Int)
    (h : (classifierScorePhase tl m).1 = true) :
    (classifierScorePhase tl m).2.1 = some (assignCategory tl) := by
  simp only [classifierScorePhase] at h ⊢
  exact finalGates_category _ _ _ _ _ _ _ h

set_option maxHeartbeats 2000000 in
/-- On acceptance the strict classifier's category is exactly the value of
the first-match `if`/`elif` chain `assignCategory`. -/
theorem substantive_accept_category (text title : Str) (m : Int)
    (h : (is_substantive_pain_expression text title m).1 = true) :
    (is_substantive_pain_expression text title m).2.1 =
      some (assignCategory (lowerStr text)) := by
  simp only [is_substantive_pain_expression] at h ⊢
  split_ifs at h ⊢ <;> first | exact Bool.noConfusion h | exact scorePhase_category _ _ h

/-- Claim C3: for every body the strict classifier accepts, the assigned
category is the value of the fixed-priority first-match chain; in
particular a body matching both the cash-flow vocabulary and the staffing
vocabulary is categorized `cash_flow_finance` and never `staffing`. -/
theorem claim_C3 (text title : Str) (m : Int)
    (hacc : (is_substantive_pain_expression text title m).1 = true) :
    ((is_substantive_pain_expression text title m).2.1 =
       some (assignCategory (lowerStr text))) ∧
    (reSearch catCashflowPat (lowerStr text) = true →
      assignCategory (lowerStr text) = Category.cash_flow_finance) ∧
    (reSearch catCashflowPat (lowerStr text) = false →
      reSearch catStaffingPat (lowerStr text) = true →
      assignCategory (lowerStr text) = Category.staffing) ∧
    (reSearch catCashflowPat (lowerStr text) = false →
      reSearch catStaffingPat (lowerStr text) = false →
      reSearch catOpsPat (lowerStr text) = true →
      assignCategory (lowerStr text) = Category.operations_systems) ∧
    (reSearch catCashflowPat (lowerStr text) = false →
      reSearch catStaffingPat (lowerStr text) = false →
      reSearch catOpsPat (lowerStr text) = false →
      reSearch catMarketingPat (lowerStr text) = true →
      assignCategory (lowerStr text) = Category.marketing_growth) ∧
    (reSearch catCashflowPat (lowerStr text) = false →
      reSearch catStaffingPat (lowerStr text) = false →
      reSearch catOpsPat (lowerStr text) = false →
      reSearch catMarketingPat (lowerStr text) = false →
      reSearch catLegalPat (lowerStr text) = true →
      assignCategory (lowerStr text) = Category.legal_compliance) ∧
    (reSearch catCashflowPat (lowerStr text) = false →
      reSearch catStaffingPat (lowerStr text) = false →
      reSearch catOpsPat (lowerStr text) = false →
      reSearch catMarketingPat (lowerStr text) = false →
      reSearch catLegalPat (lowerStr text) = false →
      reSearch catBurnoutPat (lowerStr text) = true →
      assignCategory (lowerStr text) = Category.founder_burnout) ∧
    (reSearch catCashflowPat (lowerStr text) = false →
      reSearch catStaffingPat (lowerStr text) = false →
      reSearch catOpsPat (lowerStr text) = false →
      reSearch catMarketingPat (lowerStr text) = false →
      reSearch catLegalPat (lowerStr text) = false →
      reSearch catBurnoutPat (lowerStr text) = false →
      reSearch catCustomerPat (lowerStr text) = true →
      assignCategory (lowerStr text) = Category.customer_management) ∧
    (reSearch catCashflowPat (lowerStr text) = false →
      reSearch catStaffingPat (lowerStr text) = false →
      reSearch catOpsPat (lowerStr text) = false →
      reSearch catMarketingPat (lowerStr text) = false →
      reSearch catLegalPat (lowerStr text) = false →
      reSearch catBurnoutPat (lowerStr text) = false →
      reSearch catCustomerPat (lowerStr text) = false →
      assignCategory (lowerStr text) = Category.general_business_pain) ∧
    (reSearch catCashflowPat (lowerStr text) = true →
      reSearch catStaffingPat (lowerStr text) = true →
      (is_substantive_pain_expression text title m).2.1 =
          some Category.cash_flow_finance ∧
        (is_substantive_pain_expression text title m).2.1 ≠
          some Category.staffing) := by
  have hcat := substantive_accept_category text title m hacc
  refine ⟨hcat, ?_, ?_, ?_, ?_, ?_, ?_, ?_, ?_, ?_⟩
  · intro h1
    simp [assignCategory, h1]
  · intro h1 h2
    simp [assignCategory, h1, h2]
  · intro h1 h2 h3
    simp [assignCategory, h1, h2, h3]
  · intro h1 h2 h3 h4
    simp [assignCategory, h1, h2, h3, h4]
  · intro h1 h2 h3 h4 h5
    simp [assignCategory, h1, h2, h3, h4, h5]
  · intro h1 h2 h3 h4 h5 h6
    simp [assignCategory, h1, h2, h3, h4, h5, h6]
  · intro h1 h2 h3 h4 h5 h6 h7
    simp [assignCategory, h1, h2, h3, h4, h5, h6, h7]
  · intro h1 h2 h3 h4 h5 h6 h7
    simp [assignCategory, h1, h2, h3, h4, h5, h6, h7]
  · intro h1 _
    rw [hcat]
    have : assignCategory (lowerStr text) = Category.cash_flow_finance := by
      simp [assignCategory, h1]
    rw [this]
    exact ⟨rfl, by simp⟩

/-- Claim C3, witness: `tBoth` is accepted, matches both the cash-flow and
the staffing vocabulary, and is categorized `cash_flow_finance`, not
`staffing`. -/
theorem claim_C3_witness :
    reSearch catCashflowPat (lowerStr tBoth) = true ∧
    reSearch catStaffingPat (lowerStr tBoth) = true ∧
    (is_substantive_pain_expression tBoth [] STRICT_CLASSIFIER_MIN_SCORE).2.1 =
      some Category.cash_flow_finance ∧
    (is_substantive_pain_expression tBoth [] STRICT_CLASSIFIER_MIN_SCORE).2.1 ≠
      some Category.staffing := by
  have hc : reSearch catCashflowPat (lowerStr tBoth) = true := by decide
  have hs : reSearch catStaffingPat (lowerStr tBoth) = true := by decide
  have h :=
    (claim_C3 tBoth [] STRICT_CLASSIFIER_MIN_SCORE (by decide)).2.2.2.2.2.2.2.2.2 hc hs
  exact ⟨hc, hs, h.1, h.2⟩

/-- The scaled combined score is exactly 500 times the rational formula. -/
theorem combined500_eq (relevance upvotes : Int) (numComments : Nat) :
    (combined500Of relevance upvotes numComments : ℚ) =
      500 * combinedScoreOf relevance upvotes numComments := by
  unfold combined500Of combinedScoreOf
  push_cast
  ring

/-- Every kept candidate's combined score is the formula of its own
fields. -/
theorem discoverStep_formula (mc : Nat) (p : PostData) (c : ThreadCand)
    (h : discoverStep mc p = some c) :
    c.combined_score = combined500Of c.relevance_score c.score c.num_comments := by
  simp only [discoverStep] at h
  split_ifs at h <;>
    first
    | exact Option.noConfusion h
    | (obtain rfl := (Option.some.inj h).symm; rfl)

/-- Claim C8: every kept thread's combined score equals
`relevance*2.5 + clamp(upvotes,0,3000)/250 + clamp(comments,0,400)/20`
(stored scaled by 500, and exactly 500 times the rational formula), and
the scorer's output is sorted by combined score descending with ties kept
in discovery order (the unique stable descending sort of the
discovery-ordered candidate list). -/
theorem claim_C8 (posts : List PostData) (mc : Nat) :
    (∀ x ∈ discover_threads posts mc,
      x.2.combined_score =
        combined500Of x.2.relevance_score x.2.score x.2.num_comments) ∧
    (∀ x ∈ discover_threads posts mc,
      (x.2.combined_score : ℚ) =
        500 * combinedScoreOf x.2.relevance_score x.2.score x.2.num_comments) ∧
    List.Sorted discSortRel (discover_threads posts mc) ∧
    (discover_threads posts mc).Perm ((posts.filterMap (discoverStep mc)).enum) := by
  have hform : ∀ x ∈ discover_threads posts mc,
      x.2.combined_score =
        combined500Of x.2.relevance_score x.2.score x.2.num_comments := by
    intro x hx
    unfold discover_threads at hx
    have hx2 : x ∈ (posts.filterMap (discoverStep mc)).enum :=
      (List.perm_insertionSort discSortRel _).mem_iff.mp hx
    have hget := List.mem_enum_iff_get?.mp hx2
    have hmem : x.2 ∈ posts.filterMap (discoverStep mc) := List.get?_mem hget
    obtain ⟨p, _, hp⟩ := List.mem_filterMap.mp hmem
    exact discoverStep_formula mc p x.2 hp
  refine ⟨hform, ?_, List.sorted_insertionSort _ _, List.perm_insertionSort _ _⟩
  intro x hx
  rw [hform x hx, combined500_eq]

/-- Claim C8, witness posts: the first is kept (keyword matches, question
mark, first-person pronoun), the second is filtered out (no relevance and
fewer than twice the minimum comments). -/
def post8a : PostData := ⟨lstr "Why is my business failing?", [], 10, 15⟩

/-- A post with no keyword relevance. -/
def post8b : PostData := ⟨lstr "General discussion", lstr "nothing in particular here", 5, 12⟩

/-- A default candidate pair for `headD`. -/
def cand0 : Nat × ThreadCand := (0, ⟨[], 0, 0, 0, [], 0⟩)

/-- Claim C8, witness: the head of the sorted discovery output satisfies
the combined-score formula. -/
theorem claim_C8_witness :
    ((discover_threads [post8a, post8b] 10).headD cand0 ∈
      discover_threads [post8a, post8b] 10) ∧
    ((discover_threads [post8a, post8b] 10).headD cand0).2.combined_score =
      combined500Of ((discover_threads [post8a, post8b] 10).headD cand0).2.relevance_score
        ((discover_threads [post8a, post8b] 10).headD cand0).2.score
        ((discover_threads [post8a, post8b] 10).headD cand0).2.num_comments :=
  ⟨by decide, (claim_C8 [post8a, post8b] 10).1 _ (by decide)⟩

/-!  ## Claim C9: normalization idempotence analysis  -/

/-- `Char.ofNat` round-trips on valid scalar values below the surrogate
range. -/
theorem char_toNat_ofNat (n : Nat) (h : n < 55296) : (Char.ofNat n).toNat = n := by
  have hv : n.isValidChar := Or.inl h
  unfold Char.ofNat
  rw [dif_pos hv]
  simp [Char.ofNatAux, Char.toNat, UInt32.toNat]

/-- `Char.toLower` fixes characters outside `A`..`Z`. -/
theorem toLower_eq_self (c : Char) (h : ¬(65 ≤ c.toNat ∧ c.toNat ≤ 90)) :
    Char.toLower c = c := by
  unfold Char.toLower
  rw [if_neg (by omega)]

/-- `Char.toLower` maps an uppercase letter 32 code points up. -/
theorem toLower_eq_ofNat (c : Char) (h : 65 ≤ c.toNat ∧ c.toNat ≤ 90) :
    Char.toLower c = Char.ofNat (c.toNat + 32) := by
  unfold Char.toLower
  rw [if_pos (by omega)]

/-- Lowercasing does not change whether a character is whitespace. -/
theorem pyIsWS_toLower (c : Char) : pyIsWS (Char.toLower c) = pyIsWS c := by
  by_cases h : 65 ≤ c.toNat ∧ c.toNat ≤ 90
  · rw [toLower_eq_ofNat c h]
    have h32 : (Char.ofNat (c.toNat + 32)).toNat = c.toNat + 32 :=
      char_toNat_ofNat _ (by omega)
    have l1 : pyIsWS (Char.ofNat (c.toNat + 32)) = false := by
      unfold pyIsWS
      rw [h32]
      simp only [Bool.or_eq_false_iff, decide_eq_false_iff_not]
      omega
    have l2 : pyIsWS c = false := by
      unfold pyIsWS
      simp only [Bool.or_eq_false_iff, decide_eq_false_iff_not]
      omega
    rw [l1, l2]
  · rw [toLower_eq_self c h]

/-- `Char.toLower` is idempotent. -/
theorem toLower_idem (c : Char) : Char.toLower (Char.toLower c) = Char.toLower c := by
  by_cases h : 65 ≤ c.toNat ∧ c.toNat ≤ 90
  · rw [toLower_eq_ofNat c h]
    apply toLower_eq_self
    rw [char_toNat_ofNat _ (by omega)]
    omega
  · rw [toLower_eq_self c h, toLower_eq_self c h]

/-- A prefix of a prefix: matching `p ++ q` at the start of `l` matches `p`
at the start of `l`. -/
theorem startsWith_append_left : ∀ (p q l : Str),
    startsWith (p ++ q) l = true → startsWith p l = true
  | [], _, _, _ => rfl
  | _ :: _, _, [], h => Bool.noConfusion h
  | a :: p, q, c :: l, h => by
    simp only [List.cons_append, startsWith, Bool.and_eq_true] at h ⊢
    exact ⟨h.1, startsWith_append_left p q l h.2⟩

/-- A URL match means the string starts with `http`. -/
theorem matchURL_starts (l : Str) (r : Str) (h : matchURL l = some r) :
    startsWith (lstr "http") l = true := by
  unfold matchURL at h
  by_cases h8 : startsWith (lstr "https://") l = true
  · exact startsWith_append_left (lstr "http") (lstr "s://") l
      (by rw [(by rfl : lstr "http" ++ lstr "s://" = lstr "https://")]; exact h8)
  · rw [if_neg h8] at h
    by_cases h7 : startsWith (lstr "http://") l = true
    · exact startsWith_append_left (lstr "http") (lstr "://") l
        (by rw [(by rfl : lstr "http" ++ lstr "://" = lstr "http://")]; exact h7)
    · rw [if_neg h7] at h
      exact Option.noConfusion h

/-- Matching at the head makes the substring test succeed. -/
theorem containsSub_of_startsWith (l p : Str) (h : startsWith p l = true) :
    containsSub l p = true := by
  unfold containsSub
  rw [h]
  rfl

/-- `re.sub` of the URL pattern is the identity on strings with no `http`
substring. -/
theorem removeURLsF_eq_self : ∀ (fuel : Nat) (l : Str),
    containsSub l (lstr "http") = false → removeURLsF fuel l = l
  | 0, l, _ => by cases l <;> rfl
  | _ + 1, [], _ => rfl
  | fuel + 1, c :: rest, h => by
    have hs : startsWith (lstr "http") (c :: rest) = false := by
      by_contra hc
      rw [containsSub_of_startsWith _ _ (by revert hc; cases startsWith (lstr "http") (c :: rest) <;> simp)] at h
      exact Bool.noConfusion h
    have hrest : containsSub rest (lstr "http") = false := by
      unfold containsSub at h
      rw [hs] at h
      simpa using h
    cases hm : matchURL (c :: rest) with
    | some r =>
      rw [matchURL_starts _ _ hm] at hs
      exact Bool.noConfusion hs
    | none =>
      simp only [removeURLsF, hm]
      rw [removeURLsF_eq_self fuel rest hrest]

/-- `removeURLs` is the identity on strings with no `http` substring. -/
theorem removeURLs_eq_self (l : Str) (h : containsSub l (lstr "http") = false) :
    removeURLs l = l :=
  removeURLsF_eq_self _ l h

/-- The head of the string, if any, is not whitespace. -/
def headNotWS (l : Str) : Prop :=
  ∀ c, l.head? = some c → pyIsWS c = false

/-- Every whitespace character of the string is a plain space. -/
def wsSpaceOnly (l : Str) : Prop :=
  ∀ c ∈ l, pyIsWS c = true → c = ' '

/-- No two adjacent whitespace characters. -/
def noAdjWS (l : Str) : Prop :=
  List.Chain' (fun c d => ¬(pyIsWS c = true ∧ pyIsWS d = true)) l

/-- Whitespace collapsing yields space-only whitespace, no adjacent
whitespace, and (in the inside-a-run state) a non-whitespace head. -/
theorem collapseWS_sound : ∀ (l : Str) (b : Bool),
    wsSpaceOnly (collapseWS b l) ∧ noAdjWS (collapseWS b l) ∧
      (b = true → headNotWS (collapseWS b l))
  | [], _ => by
    refine ⟨fun c hc => absurd hc (by simp [collapseWS]), by simp [collapseWS, noAdjWS], ?_⟩
    intro _ c hc
    simp [collapseWS] at hc
  | c :: rest, b => by
    have ih := collapseWS_sound rest
    by_cases hw : pyIsWS c = true
    · cases b with
      | true =>
        simp only [collapseWS, hw, if_true]
        exact ⟨(ih true).1, (ih true).2.1, fun _ => (ih true).2.2 rfl⟩
      | false =>
        simp only [collapseWS, hw, if_true, Bool.false_eq_true, if_false]
        refine ⟨?_, ?_, fun hb => absurd hb (by simp)⟩
        · intro d hd hws
          rcases List.mem_cons.mp hd with rfl | hd'
          · rfl
          · exact (ih true).1 d hd' hws
        · rw [noAdjWS, List.chain'_cons']
          refine ⟨?_, (ih true).2.1⟩
          intro y hy hcon
          have := (ih true).2.2 rfl y (Option.mem_def.mp hy)
          rw [hcon.2] at this
          exact Bool.noConfusion this
    · have hw' : pyIsWS c = false := by revert hw; cases pyIsWS c <;> simp
      have hbranch : ∀ b', collapseWS b' (c :: rest) = c :: collapseWS false rest := by
        intro b'
        simp [collapseWS, hw']
      refine ⟨?_, ?_, ?_⟩ <;> rw [hbranch]
      · intro d hd hws
        rcases List.mem_cons.mp hd with rfl | hd'
        · rw [hws] at hw'
          exact Bool.noConfusion hw'
        · exact (ih false).1 d hd' hws
      · rw [noAdjWS, List.chain'_cons']
        refine ⟨?_, (ih false).2.1⟩
        intro y _ hcon
        rw [hcon.1] at hw'
        exact Bool.noConfusion hw'
      · intro _ d hd
        simp only [List.head?_cons, Option.some.injEq] at hd
        rw [← hd]
        exact hw'

/-- Whitespace collapsing is the identity on already-collapsed strings. -/
theorem collapseWS_id : ∀ (l : Str),
    wsSpaceOnly l → noAdjWS l →
      collapseWS false l = l ∧ (headNotWS l → collapseWS true l = l)
  | [], _, _ => ⟨rfl, fun _ => rfl⟩
  | c :: rest, hsp, hadj => by
    have hsp' : wsSpaceOnly rest := fun d hd => hsp d (List.mem_cons_of_mem _ hd)
    have hadj' : noAdjWS rest := hadj.tail
    have ih := collapseWS_id rest hsp' hadj'
    by_cases hw : pyIsWS c = true
    · have hc : c = ' ' := hsp c (List.mem_cons_self _ _) hw
      have hrest : headNotWS rest := by
        intro d hd
        have hrel := (List.chain'_cons'.mp hadj).1 d (Option.mem_def.mpr hd)
        by_contra hdws
        exact hrel ⟨hw, by revert hdws; cases pyIsWS d <;> simp⟩
      constructor
      · simp only [collapseWS, hw, if_true, Bool.false_eq_true, if_false]
        rw [ih.2 hrest, hc]
      · intro hh
        have := hh c rfl
        rw [hw] at this
        exact Bool.noConfusion this
    · have hw' : pyIsWS c = false := by revert hw; cases pyIsWS c <;> simp
      constructor
      · simp only [collapseWS, hw', Bool.false_eq_true, if_false]
        rw [ih.1]
      · intro _
        simp only [collapseWS, hw', Bool.false_eq_true, if_false]
        rw [ih.1]

/-- The leading-whitespace drop leaves a non-whitespace head. -/
theorem headNotWS_dropWhile : ∀ l : Str, headNotWS (l.dropWhile pyIsWS)
  | [] => by
    intro c hc
    simp [List.dropWhile] at hc
  | a :: rest => by
    rw [List.dropWhile_cons]
    by_cases hw : pyIsWS a = true
    · rw [if_pos hw]
      exact headNotWS_dropWhile rest
    · rw [if_neg hw]
      intro c hc
      simp only [List.head?_cons, Option.some.injEq] at hc
      rw [← hc]
      revert hw
      cases pyIsWS a <;> simp

/-- Dropping leading whitespace is the identity when the head is not
whitespace. -/
theorem dropWhile_eq_self (l : Str) (h : headNotWS l) : l.dropWhile pyIsWS = l := by
  cases l with
  | nil => rfl
  | cons a rest =>
    have := h a rfl
    rw [List.dropWhile_cons, this]
    simp

/-- A nonempty trailing-strip keeps the original head. -/
theorem rstripWS_head : ∀ (l : Str) (h : Char) (t : Str),
    rstripWS l = h :: t → l.head? = some h
  | [], h, t, he => by simp [rstripWS] at he
  | c :: rest, h, t, he => by
    simp only [rstripWS] at he
    cases hm : rstripWS rest with
    | nil =>
      rw [hm] at he
      by_cases hw : pyIsWS c = true
      · rw [if_pos hw] at he
        exact List.noConfusion he
      · rw [if_neg hw] at he
        simp only [List.cons.injEq] at he
        rw [he.1]
        rfl
    | cons x xs =>
      rw [hm] at he
      simp only [List.cons.injEq] at he
      rw [he.1]
      rfl

/-- Trailing strip preserves a non-whitespace head. -/
theorem headNotWS_rstripWS (l : Str) (h : headNotWS l) : headNotWS (rstripWS l) := by
  intro d hd
  cases hm : rstripWS l with
  | nil =>
    rw [hm] at hd
    exact Option.noConfusion hd
  | cons x xs =>
    rw [hm] at hd
    simp only [List.head?_cons, Option.some.injEq] at hd
    rw [← hd]
    exact h x (rstripWS_head l x xs hm)

/-- Trailing strip is idempotent. -/
theorem rstripWS_idem : ∀ l : Str, rstripWS (rstripWS l) = rstripWS l
  | [] => rfl
  | c :: rest => by
    have ih := rstripWS_idem rest
    cases hm : rstripWS rest with
    | nil =>
      by_cases hw : pyIsWS c = true
      · have e : rstripWS (c :: rest) = [] := by
          simp only [rstripWS, hm]
          rw [if_pos hw]
        rw [e]
        rfl
      · have e : rstripWS (c :: rest) = [c] := by
          simp only [rstripWS, hm]
          rw [if_neg hw]
        rw [e]
        simp only [rstripWS]
        rw [if_neg hw]
    | cons x xs =>
      have e : rstripWS (c :: rest) = c :: x :: xs := by
        simp only [rstripWS, hm]
      have e2 : rstripWS (c :: x :: xs) =
          match rstripWS (x :: xs) with
          | [] => if pyIsWS c = true then [] else [c]
          | h :: t => c :: h :: t := rfl
      rw [hm] at ih
      rw [e, e2, ih]

/-- Members of the trailing strip are members of the original string. -/
theorem mem_rstripWS : ∀ (l : Str) (c : Char), c ∈ rstripWS l → c ∈ l
  | [], c, hc => by simp [rstripWS] at hc
  | a :: rest, c, hc => by
    cases hm : rstripWS rest with
    | nil =>
      have e : rstripWS (a :: rest) = if pyIsWS a = true then [] else [a] := by
        simp only [rstripWS, hm]
      rw [e] at hc
      split_ifs at hc
      · simp at hc
      · simp only [List.mem_singleton] at hc
        rw [hc]
        exact List.mem_cons_self _ _
    | cons x xs =>
      have e : rstripWS (a :: rest) = a :: x :: xs := by
        simp only [rstripWS, hm]
      rw [e] at hc
      rcases List.mem_cons.mp hc with rfl | hc'
      · exact List.mem_cons_self _ _
      · exact List.mem_cons_of_mem _ (mem_rstripWS rest c (by rw [hm]; exact hc'))

/-- Dropping leading whitespace preserves the no-adjacent-whitespace
property. -/
theorem noAdjWS_dropWhile : ∀ l : Str, noAdjWS l → noAdjWS (l.dropWhile pyIsWS)
  | [], h => h
  | a :: rest, h => by
    rw [List.dropWhile_cons]
    by_cases hw : pyIsWS a = true
    · rw [if_pos hw]
      exact noAdjWS_dropWhile rest h.tail
    · rw [if_neg hw]
      exact h

/-- Trailing strip preserves the no-adjacent-whitespace property. -/
theorem noAdjWS_rstripWS : ∀ l : Str, noAdjWS l → noAdjWS (rstripWS l)
  | [], h => h
  | a :: rest, h => by
    have ih := noAdjWS_rstripWS rest h.tail
    cases hm : rstripWS rest with
    | nil =>
      have e : rstripWS (a :: rest) = if pyIsWS a = true then [] else [a] := by
        simp only [rstripWS, hm]
      rw [e]
      split_ifs
      · simp [noAdjWS]
      · simp [noAdjWS]
    | cons x xs =>
      have e : rstripWS (a :: rest) = a :: x :: xs := by
        simp only [rstripWS, hm]
      rw [e]
      rw [noAdjWS, List.chain'_cons]
      refine ⟨?_, by rw [hm] at ih; exact ih⟩
      exact (List.chain'_cons'.mp h).1 x (Option.mem_def.mpr (rstripWS_head rest x xs hm))

/-- Members of the leading-whitespace drop are members of the original. -/
theorem mem_dropWhileWS : ∀ (l : Str) (c : Char), c ∈ l.dropWhile pyIsWS → c ∈ l
  | [], c, hc => hc
  | a :: rest, c, hc => by
    rw [List.dropWhile_cons] at hc
    by_cases hw : pyIsWS a = true
    · rw [if_pos hw] at hc
      exact List.mem_cons_of_mem _ (mem_dropWhileWS rest c hc)
    · rw [if_neg hw] at hc
      exact hc

/-- The whole strip is idempotent. -/
theorem stripWS_idem (l : Str) : stripWS (stripWS l) = stripWS l := by
  have h1 : headNotWS (stripWS l) :=
    headNotWS_rstripWS _ (headNotWS_dropWhile l)
  show rstripWS ((stripWS l).dropWhile pyIsWS) = stripWS l
  rw [dropWhile_eq_self _ h1]
  exact rstripWS_idem _

/-- Strip preserves space-only whitespace. -/
theorem wsSpaceOnly_stripWS (l : Str) (h : wsSpaceOnly l) : wsSpaceOnly (stripWS l) :=
  fun c hc => h c (mem_dropWhileWS l c (mem_rstripWS _ c hc))

/-- Strip preserves the no-adjacent-whitespace property. -/
theorem noAdjWS_stripWS (l : Str) (h : noAdjWS l) : noAdjWS (stripWS l) :=
  noAdjWS_rstripWS _ (noAdjWS_dropWhile l h)

/-- Lowercasing commutes with the leading-whitespace drop. -/
theorem lowerStr_dropWhile : ∀ l : Str,
    (lowerStr l).dropWhile pyIsWS = lowerStr (l.dropWhile pyIsWS)
  | [] => rfl
  | a :: rest => by
    show (Char.toLower a :: lowerStr rest).dropWhile pyIsWS = _
    rw [List.dropWhile_cons, List.dropWhile_cons, pyIsWS_toLower]
    by_cases hw : pyIsWS a = true
    · rw [if_pos hw, if_pos hw]
      exact lowerStr_dropWhile rest
    · rw [if_neg hw, if_neg hw]
      rfl

/-- Lowercasing commutes with the trailing strip. -/
theorem lowerStr_rstripWS : ∀ l : Str, rstripWS (lowerStr l) = lowerStr (rstripWS l)
  | [] => rfl
  | a :: rest => by
    have ih := lowerStr_rstripWS rest
    show rstripWS (Char.toLower a :: lowerStr rest) = _
    cases hm : rstripWS rest with
    | nil =>
      have hm' : rstripWS (lowerStr rest) = [] := by
        rw [ih, hm]
        rfl
      simp only [rstripWS, hm, hm', pyIsWS_toLower]
      by_cases hw : pyIsWS a = true
      · rw [if_pos hw, if_pos hw]
        rfl
      · rw [if_neg hw, if_neg hw]
        rfl
    | cons x xs =>
      have hm' : rstripWS (lowerStr rest) = Char.toLower x :: lowerStr xs := by
        rw [ih, hm]
        rfl
      simp only [rstripWS, hm, hm']
      rfl

/-- Lowercasing commutes with strip. -/
theorem lowerStr_stripWS (l : Str) : lowerStr (stripWS l) = stripWS (lowerStr l) := by
  show lowerStr (rstripWS (l.dropWhile pyIsWS)) = rstripWS ((lowerStr l).dropWhile pyIsWS)
  rw [lowerStr_dropWhile, lowerStr_rstripWS]

/-- Lowercasing is idempotent. -/
theorem lowerStr_idem (l : Str) : lowerStr (lowerStr l) = lowerStr l := by
  show (l.map Char.toLower).map Char.toLower = l.map Char.toLower
  rw [List.map_map]
  exact List.map_congr_left (fun c _ => toLower_idem c)

/-- Lowercasing preserves space-only whitespace. -/
theorem wsSpaceOnly_lowerStr (l : Str) (h : wsSpaceOnly l) : wsSpaceOnly (lowerStr l) := by
  intro c hc hw
  obtain ⟨d, hd, rfl⟩ := List.mem_map.mp hc
  rw [pyIsWS_toLower] at hw
  rw [h d hd hw]
  rfl

/-- Lowercasing preserves the no-adjacent-whitespace property. -/
theorem noAdjWS_lowerStr (l : Str) (h : noAdjWS l) : noAdjWS (lowerStr l) := by
  rw [noAdjWS, lowerStr, List.chain'_map]
  refine List.Chain'.imp ?_ h
  intro a b hab hcon
  rw [pyIsWS_toLower, pyIsWS_toLower] at hcon
  exact hab hcon

/-- Normalization output has space-only, non-adjacent whitespace. -/
theorem normalize_wsStruct (t : Str) :
    wsSpaceOnly (normalize_text t) ∧ noAdjWS (normalize_text t) := by
  show wsSpaceOnly (stripWS (lowerStr (collapseWS false (removeURLs t)))) ∧ _
  have h0 := collapseWS_sound (removeURLs t) false
  exact ⟨wsSpaceOnly_stripWS _ (wsSpaceOnly_lowerStr _ h0.1),
         noAdjWS_stripWS _ (noAdjWS_lowerStr _ h0.2.1)⟩

/-- Lowercasing fixes the normalization output. -/
theorem normalize_lower_fixed (t : Str) :
    lowerStr (normalize_text t) = normalize_text t := by
  show lowerStr (stripWS (lowerStr (collapseWS false (removeURLs t)))) = _
  rw [lowerStr_stripWS, lowerStr_idem]
  rfl

/-- Stripping fixes the normalization output. -/
theorem normalize_strip_fixed (t : Str) :
    stripWS (normalize_text t) = normalize_text t := by
  show stripWS (stripWS (lowerStr (collapseWS false (removeURLs t)))) = _
  exact stripWS_idem _

/-- Normalization is idempotent on every text whose normalized form has no
`http` substring. -/
theorem normalize_idem_of_noHTTP (t : Str)
    (h : containsSub (normalize_text t) (lstr "http") = false) :
    normalize_text (normalize_text t) = normalize_text t := by
  have hws := normalize_wsStruct t
  calc normalize_text (normalize_text t)
      = stripWS (lowerStr (collapseWS false (removeURLs (normalize_text t)))) := rfl
    _ = stripWS (lowerStr (collapseWS false (normalize_text t))) := by
        rw [removeURLs_eq_self _ h]
    _ = stripWS (lowerStr (normalize_text t)) := by
        rw [(collapseWS_id _ hws.1 hws.2).1]
    _ = stripWS (normalize_text t) := by rw [normalize_lower_fixed]
    _ = normalize_text t := normalize_strip_fixed t

/-- Claim C9 (amended): normalization is idempotent — and hence the
similarity ratio is unchanged by pre-normalizing an argument — whenever
the normalized text contains no `http` substring.  In general it is NOT
idempotent, because URL stripping is case-sensitive and precedes
lowercasing; see the counterexample. -/
theorem claim_C9 (t u : Str)
    (h : containsSub (normalize_text t) (lstr "http") = false) :
    normalize_text (normalize_text t) = normalize_text t ∧
    calculate_similarity (normalize_text t) u = calculate_similarity t u := by
  have hid := normalize_idem_of_noHTTP t h
  refine ⟨hid, ?_⟩
  unfold calculate_similarity
  rw [hid]

/-- Claim C9, witness: an ordinary text with no URL. -/
theorem claim_C9_witness :
    normalize_text (normalize_text (lstr "  Hello   World ")) =
      normalize_text (lstr "  Hello   World ") ∧
    calculate_similarity (normalize_text (lstr "  Hello   World ")) (lstr "x") =
      calculate_similarity (lstr "  Hello   World ") (lstr "x") :=
  claim_C9 (lstr "  Hello   World ") (lstr "x") (by decide)

/-- Claim C9, counterexample to the claim as stated: for
`tC9 = "HTTP://a b"` the first normalization pass lowercases the scheme
without stripping the URL (the sub runs before `lower()` and is
case-sensitive), so the second pass strips it:
`normalize(tC9) = "http://a b"` but `normalize(normalize(tC9)) = "b"`, and
the similarity ratio against `tC9` itself changes from 1 to 2/11 when the
first argument is pre-normalized. -/
theorem claim_C9_counterexample :
    normalize_text (normalize_text tC9) ≠ normalize_text tC9 ∧
    calculate_similarity (normalize_text tC9) tC9 ≠ calculate_similarity tC9 tC9 := by
  have e1 : normalize_text tC9 = lstr "http://a b" := by decide
  have e2 : normalize_text (lstr "http://a b") = lstr "b" := by decide
  have m1 : matchingTotal (lstr "http://a b") (lstr "http://a b") = 10 := by decide
  have m2 : matchingTotal (lstr "b") (lstr "http://a b") = 1 := by decide
  constructor
  · rw [e1, e2]
    decide
  · unfold calculate_similarity seqRatio
    rw [e1, e2, m1, m2]
    norm_num [lstr]
